import Mathlib

/-!
The program bag_residual: a verification development

A shallow embedding of `src/main.c` (the whole program is the one function `main`).

Conventions of the embedding.

* `float`, `double` and `long double` values are modelled by exact rationals (`Rat`); rounding,
  infinities and NaN are outside the model. A floating division whose divisor is zero has no
  rational value and is modelled by `none`.
* The geometry check is the one place where the outcome turns on which values a `double` can
  hold: there the `double` subtraction is rounded to binary64 by `roundDouble`, and `SKOSH` is
  the value that the x87 extended format gives the literal.
* `int32_t` values are mathematical integers reduced to the 32-bit two's-complement range by
  `wrap32` after every arithmetic operation.
* C strings are lists of characters without the terminating NUL; character buffers are lists that
  hold the NUL explicitly.
* A step whose behaviour the C language leaves undefined (a read outside a buffer, a copy from a
  null pointer, a copy that does not fit its destination) ends the modelled run in
  `Status.undefined`, or yields `none` in the pure parts.
* The progress percentage written to stderr inside the scan is not modelled; it reads the loop
  indices and writes nothing that the rest of the program reads.
-/

namespace BagResidual

/-! ## Machine integers -/

/-- Reduction of an integer to the `int32_t` range (two's complement). -/
def wrap32 (x : Int) : Int := (x + 2147483648) % 4294967296 - 2147483648

/-- The `int32_t` subtraction `a - b`. -/
def sub32 (a b : Int) : Int := wrap32 (a - b)

/-- The `int32_t` addition `a + b`. -/
def add32 (a b : Int) : Int := wrap32 (a + b)

/-- The C library `abs` on `int`. -/
def abs32 (a : Int) : Int := wrap32 (if a < 0 then -a else a)

/-- The values an `int32_t` can hold that are not negative. -/
def NonNeg32 (x : Int) : Prop := 0 ≤ x ∧ x < 2147483648

instance (x : Int) : Decidable (NonNeg32 x) := by unfold NonNeg32; infer_instance

/-! ## Exact arithmetic standing for floating point -/

/-- The C library `fabs`. -/
def fabs (x : Rat) : Rat := if x < 0 then -x else x

/-- A floating division: `none` when the divisor is zero. -/
def fdiv (a b : Rat) : Option Rat := if b = 0 then none else some (a / b)

/-- The constant `#define SKOSH 0.00000001L`: the `long double` nearest to 1e-8 in the x87
extended format (64-bit significand), `0xabcc77118461cefd * 2^-90`. -/
def SKOSH : Rat := 12379400392853802749 / 2 ^ 90

/-- The integer nearest to a rational that is not negative, a tie going to the even one. -/
def roundHalfEven (q : Rat) : Int :=
  let f := ⌊q⌋
  if q - f < 1 / 2 then f else if 1 / 2 < q - f then f + 1 else if f % 2 = 0 then f else f + 1

/-- The exponent of the leading bit of a binary64 value near `x`: that of `x` itself, and
`-1022` in the subnormal range. -/
def binaryExponent (x : Rat) : Int := max (Int.log 2 |x|) (-1022)

/-- The binary64 value of a real result under round-to-nearest, ties to even: a significand of
53 bits at the exponent of `x`. The exponent is not bounded above (no infinities). -/
def roundDouble (x : Rat) : Rat :=
  if x = 0 then 0
  else
    let k := binaryExponent x - 52
    let n := roundHalfEven (|x| / 2 ^ k)
    if x < 0 then -((n : Rat) * 2 ^ k) else (n : Rat) * 2 ^ k

/-- The `double` subtraction `a - b`. -/
def dsub (a b : Rat) : Rat := roundDouble (a - b)

/-- The locals that `main` fills from the header of BAG file `i`: `bin_width[i]`,
`bin_height[i]`, `x_bin_size_degrees[i]`, `y_bin_size_degrees[i]`, `mbr[i].min_x` and
`mbr[i].min_y`. (`mbr[i].max_x` and `mbr[i].max_y` are computed and never read.) -/
structure GridMetadata where
  bin_width : Int
  bin_height : Int
  x_bin_size_degrees : Rat
  y_bin_size_degrees : Rat
  min_x : Rat
  min_y : Rat

/-- The condition of the `if` under "Check for (near) identical extents and spacing": `true`
when the run is to be abandoned. -/
def geometryMismatch (m0 m1 : GridMetadata) : Bool :=
  decide (abs32 (sub32 m0.bin_width m1.bin_width) > 2) ||
  decide (abs32 (sub32 m0.bin_height m1.bin_height) > 2) ||
  decide (fabs (dsub m0.min_x m1.min_x) > SKOSH) ||
  decide (fabs (dsub m0.min_y m1.min_y) > SKOSH) ||
  decide (fabs (dsub m0.x_bin_size_degrees m1.x_bin_size_degrees) > SKOSH) ||
  decide (fabs (dsub m0.y_bin_size_degrees m1.y_bin_size_degrees) > SKOSH)

/-- The geometry check accepts a pair when the mismatch branch is not taken. -/
def geometryAccepts (m0 m1 : GridMetadata) : Bool := !geometryMismatch m0 m1

/-! ## BAG files and the row reader -/

/-- What `main` reads of an opened BAG file: the header fields (the `int32_t` values that the
assignments to `bin_width[i]` and `bin_height[i]` store) and the elevation layer, row by row. -/
structure BagFile where
  meta : GridMetadata
  rows : List (List Rat)

/-- A BAG file whose elevation layer has the dimensions its header declares. -/
def BagFile.WellFormed (g : BagFile) : Prop :=
  (g.rows.length : Int) = g.meta.bin_height ∧ ∀ r ∈ g.rows, (r.length : Int) = g.meta.bin_width

/-- Modelled from the spec: `bagReadRow` of the BAG library (bag.h, not part of the sources), the
collaborator `readRow(handle, rowIndex, colStart, colEnd, layer=Elevation, outBuffer) -> status`.
The result is the elevations of columns `start_col .. end_col` of row `row`, or `none` for an
error status, returned when the row or the column range lies outside the grid. -/
def bagReadRow (g : BagFile) (row : Nat) (start_col end_col : Int) : Option (List Rat) :=
  if 0 ≤ start_col ∧ start_col ≤ end_col ∧ end_col < g.meta.bin_width then
    match g.rows[row]? with
    | some r => some ((r.drop start_col.toNat).take (end_col - start_col + 1).toNat)
    | none => none
  else none

/-- The effect on the row buffer `data` of `err = bagReadRow (..., (void *) data)` in `main`:
the elevations read overwrite the front of the buffer; on an error status the buffer keeps its
contents, and `main` does not look at `err`. -/
def readInto (data : List Rat) (res : Option (List Rat)) : List Rat :=
  match res with
  | some r => r ++ data.drop r.length
  | none => data

/-! ## The scan -/

/-- The status values of a CHRTR2 record that `main` distinguishes: the zero left by `memset`
and `CHRTR2_REAL`. -/
inductive Chrtr2Status where
  | zero
  | CHRTR2_REAL
  deriving DecidableEq, Repr

/-- The fields of `CHRTR2_RECORD` that `main` assigns after `memset` has zeroed the record;
every other field is zero in each record written. -/
structure CHRTR2_RECORD where
  z : Rat
  status : Chrtr2Status
  deriving DecidableEq, Repr

/-- One call `chrtr2_write_record_row_col (chrtr2_handle, i, j, chrtr2_record)`. -/
structure WriteCall where
  row : Nat
  col : Nat
  record : CHRTR2_RECORD
  deriving DecidableEq, Repr

/-- The accumulators of `main`, under the names of the source. -/
structure Stats where
  neg_count : Int
  pos_count : Int
  min_val : Rat
  max_val : Rat
  min_depth : Rat
  max_depth : Rat
  sum : Rat
  sum2 : Rat
  depthtot : Rat
  deriving DecidableEq, Repr

/-- The accumulators as initialised before the loop. -/
def Stats.init : Stats :=
  { neg_count := 0, pos_count := 0, min_val := 99999, max_val := -99999,
    min_depth := 99999, max_depth := -99999, sum := 0, sum2 := 0, depthtot := 0 }

/-- The accumulators and the records written so far, in the order of the calls. -/
structure ScanState where
  acc : Stats
  written : List WriteCall
  deriving DecidableEq, Repr

/-- The state before the first row. -/
def ScanState.init : ScanState := { acc := Stats.init, written := [] }

/-- The body of `if (data[0][j] < NULL_ELEVATION && data[1][j] < NULL_ELEVATION)` for the
elevations `a = data[0][j]` and `b = data[1][j]` of cell `(i, j)`. -/
def validCell (i j : Nat) (a b : Rat) (s : ScanState) : ScanState :=
  let dep := a
  let diff := a - b
  { acc :=
      { neg_count := if diff < 0 then add32 s.acc.neg_count 1 else s.acc.neg_count
        pos_count := if diff < 0 then s.acc.pos_count else add32 s.acc.pos_count 1
        min_val := if fabs diff < s.acc.min_val then fabs diff else s.acc.min_val
        max_val := if fabs diff > s.acc.max_val then fabs diff else s.acc.max_val
        min_depth := if dep < s.acc.min_depth then dep else s.acc.min_depth
        max_depth := if dep > s.acc.max_depth then dep else s.acc.max_depth
        sum := s.acc.sum + diff
        sum2 := s.acc.sum2 + diff * diff
        depthtot := s.acc.depthtot + dep }
    written := s.written ++ [{ row := i, col := j, record := { z := diff, status := .CHRTR2_REAL } }] }

/-- One iteration of the loop over `j`, for the row buffers `data0` and `data1`. The operator
`&&` reads `data[1][j]` only when `data[0][j]` is below the sentinel; an index outside a buffer
yields `none`. -/
def cellStep (NULL_ELEVATION : Rat) (i : Nat) (data0 data1 : List Rat) (s : ScanState) (j : Nat) :
    Option ScanState :=
  match data0[j]? with
  | none => none
  | some a =>
    if a < NULL_ELEVATION then
      match data1[j]? with
      | none => none
      | some b => if b < NULL_ELEVATION then some (validCell i j a b s) else some s
    else some s

/-- The loop `for (j = 0 ; j < bin_width[0] ; j++)` of row `i`. -/
def rowLoop (NULL_ELEVATION : Rat) (bin_width0 : Int) (i : Nat) (data0 data1 : List Rat)
    (s : ScanState) : Option ScanState :=
  (List.range bin_width0.toNat).foldlM (cellStep NULL_ELEVATION i data0 data1) s

/-- The loop variables that outlive a row: the two row buffers and the scan state. -/
structure LoopState where
  data0 : List Rat
  data1 : List Rat
  scan : ScanState

/-- One iteration of the loop over `i`: both rows are read, then the columns are walked. -/
def rowStep (NULL_ELEVATION : Rat) (g0 g1 : BagFile) (l : LoopState) (i : Nat) : Option LoopState :=
  let data0 := readInto l.data0 (bagReadRow g0 i 0 (sub32 g0.meta.bin_width 1))
  let data1 := readInto l.data1 (bagReadRow g1 i 0 (sub32 g1.meta.bin_width 1))
  match rowLoop NULL_ELEVATION g0.meta.bin_width i data0 data1 l.scan with
  | some s => some { data0 := data0, data1 := data1, scan := s }
  | none => none

/-- The row buffer that `calloc (bin_width[i], sizeof (float))` returns: zeros. -/
def callocRow (bin_width : Int) : List Rat := List.replicate bin_width.toNat 0

/-- The loop `for (i = 0 ; i < bin_height[0] ; i++)` from the initial accumulators: the final
scan state, or `none` when an index leaves a row buffer. -/
def scan (NULL_ELEVATION : Rat) (g0 g1 : BagFile) : Option ScanState :=
  ((List.range g0.meta.bin_height.toNat).foldlM (rowStep NULL_ELEVATION g0 g1)
    { data0 := callocRow g0.meta.bin_width, data1 := callocRow g1.meta.bin_width,
      scan := ScanState.init }).map LoopState.scan

/-! ## The statistics derived after the scan -/

/-- The expression `neg_count + pos_count`. -/
def Stats.count (s : Stats) : Int := add32 s.neg_count s.pos_count

/-- The assignment `meandiff = sum / (float) (neg_count + pos_count)`. -/
def Stats.meandiff (s : Stats) : Option Rat := fdiv s.sum s.count

/-- The assignment `meandepth = depthtot / (float) (neg_count + pos_count)`. -/
def Stats.meandepth (s : Stats) : Option Rat := fdiv s.depthtot s.count

/-- The assignment `ss = sum2 - (sum * meandiff)`. -/
def Stats.ss (s : Stats) : Option Rat := s.meandiff.map (fun m => s.sum2 - s.sum * m)

/-- The assignment `var = ss / ((neg_count + pos_count) - 1)`. -/
def Stats.var (s : Stats) : Option Rat := s.ss.bind (fun x => fdiv x (sub32 s.count 1))

/-- The argument of `sqrt` in `rms = sqrt ((double) (sum2 / (float) (neg_count + pos_count)))`. -/
def Stats.rmsRadicand (s : Stats) : Option Rat := fdiv s.sum2 s.count

/-- The assignment `neg_percent = ((float) neg_count / (float) (neg_count + pos_count)) * 100.0`. -/
def Stats.neg_percent (s : Stats) : Option Rat := (fdiv s.neg_count s.count).map (fun x => x * 100)

/-- The assignment `pos_percent = ((float) pos_count / (float) (neg_count + pos_count)) * 100.0`. -/
def Stats.pos_percent (s : Stats) : Option Rat := (fdiv s.pos_count s.count).map (fun x => x * 100)

/-- Modelled from the spec: the macro `NINT` of nvutility.h (not part of the sources), by which
the percentages are "each rounded to nearest integer for display": half is added to a value that
is not negative, subtracted from a negative one, and the conversion to `int32_t` drops the
fraction. -/
def NINT (a : Rat) : Int := if a < 0 then -(-(a - 1 / 2)).floor else (a + 1 / 2).floor

/-- The arguments of the `printf` that prints the data line. The two square roots are kept as
their radicands: `rms` is the square root of `rmsRadicand`, `stddev` that of `var`, and
`sddepth` is `(stddev / meandepth) * 100`. -/
structure DataLine where
  rmsRadicand : Option Rat
  meandiff : Option Rat
  var : Option Rat
  neg_percent : Option Int
  pos_percent : Option Int
  max_val : Rat
  meandepth : Option Rat
  count : Int
  deriving DecidableEq, Repr

/-- The data line for the final accumulators. -/
def Stats.dataLine (s : Stats) : DataLine :=
  { rmsRadicand := s.rmsRadicand, meandiff := s.meandiff, var := s.var,
    neg_percent := s.neg_percent.map NINT, pos_percent := s.pos_percent.map NINT,
    max_val := s.max_val, meandepth := s.meandepth, count := s.count }

/-- What one `printf` to stdout prints. -/
inductive StdoutLine where
  | firstBag (bag_file0 : List Char)
  | secondBag (bag_file1 : List Char)
  | columnHeader
  | data (d : DataLine)
  | blankLines
  deriving DecidableEq, Repr

/-- The part of the report printed after the raster is closed: the column header, the data
line under `if (sum != 0.0)`, and the closing blank lines. -/
def reportTail (s : Stats) : List StdoutLine :=
  [.columnHeader] ++ (if s.sum ≠ 0 then [.data s.dataLine] else []) ++ [.blankLines]

/-- Everything `main` prints to stdout in a run that reaches the report. -/
def report (bag_file0 bag_file1 : List Char) (s : Stats) : List StdoutLine :=
  [.firstBag bag_file0, .secondBag bag_file1] ++ reportTail s

/-! ## Character buffers -/

/-- The terminating character of a C string. -/
def NUL : Char := Char.ofNat 0

/-- The C library `strlen` on a buffer. -/
def strlen (buf : List Char) : Nat := (buf.takeWhile (fun c => c != NUL)).length

/-- The C string that a buffer holds. -/
def cstring (buf : List Char) : List Char := buf.takeWhile (fun c => c != NUL)

/-- The C library `strcpy (&buf[off], src)`: the characters of `src` and a NUL are stored from
index `off` on; `none` when they do not fit in the buffer. -/
def strcpy (buf : List Char) (off : Nat) (src : List Char) : Option (List Char) :=
  if off + src.length + 1 ≤ buf.length then
    some (buf.take off ++ src ++ NUL :: buf.drop (off + src.length + 1))
  else none

/-- A `char [512]` local before anything is stored in it, with the contents `uninit`. -/
def charBuffer512 (uninit : Nat → Char) : List Char := (List.range 512).map uninit

/-- The two statements under "Generate the chrtr2 file name": the name left in `chrtr2_file`.
The index `strlen (chrtr2_file) - 4` is computed in `size_t`; for a shorter name it lies outside
the buffer. -/
def chrtr2FileName (uninit : Nat → Char) (bag_file0 : List Char) : Option (List Char) :=
  match strcpy (charBuffer512 uninit) 0 bag_file0 with
  | none => none
  | some b1 =>
    if strlen b1 < 4 then none
    else
      match strcpy b1 (strlen b1 - 4) ['.', 'c', 'h', '2'] with
      | none => none
      | some b2 => some (cstring b2)

/-! ## The run -/

/-- The fields of `CHRTR2_HEADER` that `main` fills with numbers before creating the raster
(the `creation_software` string and the units are constants of the absent headers). -/
structure CHRTR2_HEADER where
  wlon : Rat
  slat : Rat
  width : Int
  height : Int
  lat_grid_size_degrees : Rat
  lon_grid_size_degrees : Rat
  min_z : Rat
  max_z : Rat
  z_scale : Rat
  horizontal_uncertainty_scale : Rat
  vertical_uncertainty_scale : Rat
  deriving DecidableEq, Repr

/-- The header assembled under "Populate the chrtr2 header prior to creating the file". -/
def chrtr2Header (m0 : GridMetadata) : CHRTR2_HEADER :=
  { wlon := m0.min_x, slat := m0.min_y, width := m0.bin_width, height := m0.bin_height,
    lat_grid_size_degrees := m0.y_bin_size_degrees, lon_grid_size_degrees := m0.x_bin_size_degrees,
    min_z := -326, max_z := 326, z_scale := 100,
    horizontal_uncertainty_scale := 0, vertical_uncertainty_scale := 0 }

/-- The externally visible steps of a run, in the order of the source. -/
inductive Event where
  | banner
  | usage
  | putenv
  | strcpyBagFile (i : Nat) (path : List Char)
  | bagFileOpen (i : Nat) (path : List Char)
  | openError (i : Nat)
  | calloc (i : Nat) (bin_width : Int)
  | perror
  | mismatchReport
  | free (i : Nat)
  | chrtr2_create_file (path : List Char) (header : CHRTR2_HEADER)
  | chrtr2_perror
  | chrtr2_write_record_row_col (w : WriteCall)
  | stdout (l : StdoutLine)
  | chrtr2_close_file
  deriving DecidableEq, Repr

/-- How a run ends: `exit (code)` or `return (code)` from `main`, or undefined behaviour. -/
inductive Status where
  | exit (code : Int)
  | undefined
  deriving DecidableEq, Repr

/-- A run: its events and how it ends. When the status is `undefined` the events are those
that precede the statement whose behaviour is undefined. -/
structure Run where
  trace : List Event
  status : Status
  deriving DecidableEq, Repr

/-- The surroundings of a run: the sentinel `NULL_ELEVATION` of bag.h, what `bagFileOpen` finds
under a path (`none` for an error), whether `calloc` returns a buffer for a given count, whether
`chrtr2_create_file` returns a handle that is not negative, and the contents of the
uninitialised character arrays. -/
structure World where
  NULL_ELEVATION : Rat
  bagFileOpen : List Char → Option BagFile
  calloc : Int → Bool
  chrtr2_create_file : List Char → CHRTR2_HEADER → Bool
  bag_file_uninit : Nat → Nat → Char
  chrtr2_file_uninit : Nat → Char

/-- The command line as `main` sees it: `argv` (`argc` is its length, `argv[argc]` is the null
pointer), the values that the successive calls of `getopt_long` return before `-1`, and
`optind` once it has returned `-1`. -/
structure CommandLine where
  argv : List (List Char)
  getopt : List Int
  optind : Nat

/-- The `switch (c)` of the option loop: `true` for a value that reaches `default`. The cases
are `0` and the character `b`. -/
def reachesDefault (c : Int) : Bool := c != 0 && c != 98

/-- The statement `strcpy (bag_file[i], argv[k])`: the string then held by `bag_file[i]`;
`none` when `argv[k]` is the null pointer or the string does not fit. -/
def copyArgument (uninit : Nat → Char) (arg : Option (List Char)) : Option (List Char) :=
  match arg with
  | none => none
  | some a => (strcpy (charBuffer512 uninit) 0 a).map cstring

/-- The run from the creation of the raster to `return (0)`. -/
def produce (w : World) (bag_file0 bag_file1 : List Char) (g0 g1 : BagFile) (t : List Event) : Run :=
  match chrtr2FileName w.chrtr2_file_uninit bag_file0 with
  | none => { trace := t, status := .undefined }
  | some chrtr2_file =>
    let t := t ++ [.chrtr2_create_file chrtr2_file (chrtr2Header g0.meta)]
    if w.chrtr2_create_file chrtr2_file (chrtr2Header g0.meta) then
      match scan w.NULL_ELEVATION g0 g1 with
      | none => { trace := t, status := .undefined }
      | some s =>
        { trace := t ++ s.written.map .chrtr2_write_record_row_col ++
            [.stdout (.firstBag bag_file0), .stdout (.secondBag bag_file1), .chrtr2_close_file] ++
            (reportTail s.acc).map .stdout,
          status := .exit 0 }
    else { trace := t ++ [.chrtr2_perror], status := .exit (-1) }

/-- The geometry check and what follows it. -/
def checkAndProduce (w : World) (bag_file0 bag_file1 : List Char) (g0 g1 : BagFile)
    (t : List Event) : Run :=
  if geometryMismatch g0.meta g1.meta then
    { trace := t ++ [.mismatchReport, .free 0, .free 1], status := .exit (-1) }
  else produce w bag_file0 bag_file1 g0 g1 t

/-- One iteration of `for (i = 0 ; i < 2 ; i++)`: the file is opened, its header read and its
row buffer allocated. The result is the file and the events, or the run that ends here. -/
def openBag (w : World) (i : Nat) (bag_file : List Char) (t : List Event) :
    Except Run (BagFile × List Event) :=
  let t := t ++ [.bagFileOpen i bag_file]
  match w.bagFileOpen bag_file with
  | none => .error { trace := t ++ [.openError i], status := .exit (-1) }
  | some g =>
    let t := t ++ [.calloc i g.meta.bin_width]
    if w.calloc g.meta.bin_width then .ok (g, t)
    else .error { trace := t ++ [.perror], status := .exit (-1) }

/-- The function `main`. -/
def main (w : World) (c : CommandLine) : Run :=
  let t := [Event.banner]
  if c.getopt.any reachesDefault then { trace := t ++ [.usage], status := .exit (-1) }
  else if c.optind ≥ c.argv.length then { trace := t ++ [.usage], status := .exit (-1) }
  else
    let t := t ++ [.putenv]
    match copyArgument (w.bag_file_uninit 0) c.argv[c.optind]? with
    | none => { trace := t, status := .undefined }
    | some bag_file0 =>
      let t := t ++ [.strcpyBagFile 0 bag_file0]
      match copyArgument (w.bag_file_uninit 1) c.argv[c.optind + 1]? with
      | none => { trace := t, status := .undefined }
      | some bag_file1 =>
        let t := t ++ [.strcpyBagFile 1 bag_file1]
        match openBag w 0 bag_file0 t with
        | .error r => r
        | .ok (g0, t) =>
          match openBag w 1 bag_file1 t with
          | .error r => r
          | .ok (g1, t) => checkAndProduce w bag_file0 bag_file1 g0 g1 t

/-- The events that produce output of the run: the creation of the raster, a record written to
it, and a line printed to stdout. -/
def Event.isOutput : Event → Bool
  | .chrtr2_create_file _ _ => true
  | .chrtr2_write_record_row_col _ => true
  | .stdout _ => true
  | _ => false

/-- The events in which an input raster is opened or a path is copied. -/
def Event.touchesInput : Event → Bool
  | .strcpyBagFile _ _ => true
  | .bagFileOpen _ _ => true
  | _ => false

/-- The lines printed to stdout among the events of a run, in order. -/
def stdoutLines (t : List Event) : List StdoutLine :=
  t.filterMap fun e =>
    match e with
    | .stdout l => some l
    | _ => none

/-! ## The scan as a sequence of cell visits

These definitions describe the scan; they are compared with `scan` in `scan_eq_runCells`. -/

/-- One execution of the body of the loop over `j`: the row, the column, and the contents of
the two row buffers at that moment. -/
structure CellVisit where
  i : Nat
  j : Nat
  data0 : List Rat
  data1 : List Rat

/-- The loop body at a visit. -/
def CellVisit.step (NULL_ELEVATION : Rat) (s : ScanState) (c : CellVisit) : Option ScanState :=
  cellStep NULL_ELEVATION c.i c.data0 c.data1 s c.j

/-- The loop body at each visit of a list, in order. -/
def runCells (NULL_ELEVATION : Rat) (cs : List CellVisit) (s : ScanState) : Option ScanState :=
  cs.foldlM (CellVisit.step NULL_ELEVATION) s

/-- A visit is valid when both buffers hold an elevation at the column and both elevations are
strictly below the sentinel. -/
def CellVisit.valid (NULL_ELEVATION : Rat) (c : CellVisit) : Bool :=
  match c.data0[c.j]?, c.data1[c.j]? with
  | some a, some b => decide (a < NULL_ELEVATION) && decide (b < NULL_ELEVATION)
  | _, _ => false

/-- The elevation of grid A at a visit (zero where the buffer has none). -/
def CellVisit.elevA (c : CellVisit) : Rat := c.data0[c.j]?.getD 0

/-- The elevation of grid B at a visit (zero where the buffer has none). -/
def CellVisit.elevB (c : CellVisit) : Rat := c.data1[c.j]?.getD 0

/-- The residual at a visit. -/
def CellVisit.diff (c : CellVisit) : Rat := c.elevA - c.elevB

/-- The record that a valid visit writes. -/
def CellVisit.writeCall (c : CellVisit) : WriteCall :=
  { row := c.i, col := c.j, record := { z := c.diff, status := .CHRTR2_REAL } }

/-- The effect of a visit on the scan state, when the visit stays inside the buffers. -/
def CellVisit.apply (NULL_ELEVATION : Rat) (s : ScanState) (c : CellVisit) : ScanState :=
  if c.valid NULL_ELEVATION then validCell c.i c.j c.elevA c.elevB s else s

/-- The contents of the row buffer of a file once the rows `0 .. n - 1` have been read into it,
starting from the buffer that `calloc` returned. -/
def bufferAfter (g : BagFile) : Nat → List Rat
  | 0 => callocRow g.meta.bin_width
  | n + 1 => readInto (bufferAfter g n) (bagReadRow g n 0 (sub32 g.meta.bin_width 1))

/-- The visits of row `i`, by increasing column. -/
def rowCells (g0 g1 : BagFile) (i : Nat) : List CellVisit :=
  (List.range g0.meta.bin_width.toNat).map
    (fun j => { i := i, j := j, data0 := bufferAfter g0 (i + 1), data1 := bufferAfter g1 (i + 1) })

/-- The visits of the whole scan, in row-major order. -/
def scanCells (g0 g1 : BagFile) : List CellVisit :=
  (List.range g0.meta.bin_height.toNat).flatMap (rowCells g0 g1)

/-- The elevation that a file holds at a cell, if the cell exists. -/
def BagFile.elevation (g : BagFile) (i j : Nat) : Option Rat :=
  match g.rows[i]? with
  | some r => r[j]?
  | none => none

/-- The records that the specification asks of the scan: in row-major order over the cells of
grid A, one record per cell at which both files hold an elevation strictly below the sentinel,
addressed by the cell, with `z` the difference of the elevations and status `REAL`. -/
def residualRecords (NULL_ELEVATION : Rat) (g0 g1 : BagFile) : List WriteCall :=
  (List.range g0.meta.bin_height.toNat).flatMap fun i =>
    (List.range g0.meta.bin_width.toNat).filterMap fun j =>
      match g0.elevation i j, g1.elevation i j with
      | some a, some b =>
        if a < NULL_ELEVATION ∧ b < NULL_ELEVATION then
          some { row := i, col := j, record := { z := a - b, status := .CHRTR2_REAL } }
        else none
      | _, _ => none

/-- The Bessel-corrected sample variance of a list of residuals, as the specification words
it: the sum of the squared deviations from the mean, over `n - 1`. -/
def sampleVariance (ds : List Rat) : Rat :=
  (ds.map (fun d => (d - ds.sum / ds.length) ^ 2)).sum / ((ds.length : Rat) - 1)

/-- A visit at which both elevations are below the sentinel and the residual is `d`. -/
def visitWithResidual (NULL_ELEVATION d : Rat) : CellVisit :=
  { i := 0, j := 0, data0 := [NULL_ELEVATION - 1 - |d| + d], data1 := [NULL_ELEVATION - 1 - |d|] }

/-- The cells of grid A in row-major order, the order in which the scan processes them. -/
def cellPositions (g0 : BagFile) : List (Nat × Nat) :=
  (List.range g0.meta.bin_height.toNat).flatMap fun i =>
    (List.range g0.meta.bin_width.toNat).map fun j => (i, j)

/-- A cell is valid in both grids when both files hold an elevation there and both elevations
are strictly below the sentinel. -/
def validInBoth (NULL_ELEVATION : Rat) (g0 g1 : BagFile) (p : Nat × Nat) : Bool :=
  match g0.elevation p.1 p.2, g1.elevation p.1 p.2 with
  | some a, some b => decide (a < NULL_ELEVATION) && decide (b < NULL_ELEVATION)
  | _, _ => false

/-- The residual of the two grids at a cell (an absent elevation counts as zero). -/
def residualAt (g0 g1 : BagFile) (p : Nat × Nat) : Rat :=
  (g0.elevation p.1 p.2).getD 0 - (g1.elevation p.1 p.2).getD 0

/-! ## Example inputs -/

/-- A BAG file of `bin_width` by `bin_height` cells of unit size at the origin. -/
def unitBag (bin_width bin_height : Int) (rows : List (List Rat)) : BagFile :=
  { meta := { bin_width := bin_width, bin_height := bin_height, x_bin_size_degrees := 1,
              y_bin_size_degrees := 1, min_x := 0, min_y := 0 },
    rows := rows }

/-- A world with a 3 by 1 grid under `a.bag`, a 6 by 1 grid under `c.bag`, and no other file. -/
def mismatchWorld : World :=
  { NULL_ELEVATION := 1000000
    bagFileOpen := fun p =>
      if p = ['a', '.', 'b', 'a', 'g'] then some (unitBag 3 1 [[10, 20, 30]])
      else if p = ['c', '.', 'b', 'a', 'g'] then some (unitBag 6 1 [[9, 21, 29, 1, 1, 1]])
      else none
    calloc := fun _ => true
    chrtr2_create_file := fun _ _ => true
    bag_file_uninit := fun _ _ => 'x'
    chrtr2_file_uninit := fun _ => 'x' }

/-- The command line `bag_residual a.bag c.bag`. -/
def mismatchCommandLine : CommandLine :=
  { argv := [['b', 'a', 'g', '_', 'r', 'e', 's', 'i', 'd', 'u', 'a', 'l'],
             ['a', '.', 'b', 'a', 'g'], ['c', '.', 'b', 'a', 'g']],
    getopt := [], optind := 1 }

/-- The command line `bag_residual a.bag`: one positional argument. -/
def oneArgumentCommandLine : CommandLine :=
  { argv := [['b', 'a', 'g', '_', 'r', 'e', 's', 'i', 'd', 'u', 'a', 'l'],
             ['a', '.', 'b', 'a', 'g']],
    getopt := [], optind := 1 }

/-- The sentinel `NULL_ELEVATION` of the BAG library, used in the examples. -/
def exampleNull : Rat := 1000000

/-- Grid A of the end-to-end example: one row `[10, 20, 30]`. -/
def endToEndA : BagFile := unitBag 3 1 [[10, 20, 30]]

/-- Grid B of the end-to-end example: one row `[9, 21, 29]`. -/
def endToEndB : BagFile := unitBag 3 1 [[9, 21, 29]]

/-- Grid A of the width example: one row of two cells. -/
def narrowA : BagFile := unitBag 2 1 [[1, 2]]

/-- Grid B of the width example: one row of one cell, so one bin narrower than grid A. -/
def narrowB : BagFile := unitBag 1 1 [[0]]

/-- The scan state at the end of the end-to-end example. -/
def endToEndFinal : ScanState :=
  { acc := { neg_count := 1, pos_count := 2, min_val := 1, max_val := 1, min_depth := 10,
             max_depth := 30, sum := 1, sum2 := 3, depthtot := 60 },
    written := [{ row := 0, col := 0, record := { z := 1, status := .CHRTR2_REAL } },
                { row := 0, col := 1, record := { z := -1, status := .CHRTR2_REAL } },
                { row := 0, col := 2, record := { z := 1, status := .CHRTR2_REAL } }] }

/-- Grid A of the height example: one column, three rows. -/
def shortA : BagFile := unitBag 1 3 [[5], [7], [9]]

/-- Grid B of the height example: one column, one row, so two rows shorter than grid A. -/
def shortB : BagFile := unitBag 1 1 [[3]]

/-! ## Facts about the machine integers and `fabs` -/

theorem wrap32_of_range (x : Int) (h1 : -2147483648 ≤ x) (h2 : x < 2147483648) : wrap32 x = x := by
  unfold wrap32; omega

theorem abs32_sub32 (a b : Int) (ha : NonNeg32 a) (hb : NonNeg32 b) :
    abs32 (sub32 a b) = |a - b| := by
  obtain ⟨ha1, ha2⟩ := ha
  obtain ⟨hb1, hb2⟩ := hb
  have hs : sub32 a b = a - b := wrap32_of_range _ (by omega) (by omega)
  rw [hs]
  unfold abs32
  by_cases h : a - b < 0
  · rw [if_pos h, abs_of_neg h]; exact wrap32_of_range _ (by omega) (by omega)
  · rw [if_neg h, abs_of_nonneg (by omega)]; exact wrap32_of_range _ (by omega) (by omega)

theorem fabs_eq_abs (x : Rat) : fabs x = |x| := by
  unfold fabs
  by_cases h : x < 0
  · rw [if_pos h, abs_of_neg h]
  · rw [if_neg h, abs_of_nonneg (not_lt.mp h)]

/-! ## Rounding to binary64 -/

theorem floor_le_roundHalfEven (q : Rat) : ⌊q⌋ ≤ roundHalfEven q := by
  unfold roundHalfEven
  simp only []
  split_ifs <;> omega

theorem roundHalfEven_le_floor_add_one (q : Rat) : roundHalfEven q ≤ ⌊q⌋ + 1 := by
  unfold roundHalfEven
  simp only []
  split_ifs <;> omega

theorem roundHalfEven_nonneg (q : Rat) (h : 0 ≤ q) : 0 ≤ roundHalfEven q :=
  le_trans (Int.floor_nonneg.mpr h) (floor_le_roundHalfEven q)

theorem two_zpow_pos (k : Int) : (0 : Rat) < 2 ^ k := zpow_pos (by norm_num) k

/-- The magnitude of a rounded value: the rounded significand at the exponent of the input. -/
theorem abs_roundDouble (x : Rat) (hx : x ≠ 0) :
    |roundDouble x| =
      (roundHalfEven (|x| / 2 ^ (binaryExponent x - 52)) : Rat) * 2 ^ (binaryExponent x - 52) := by
  have hq : 0 ≤ |x| / 2 ^ (binaryExponent x - 52) :=
    div_nonneg (abs_nonneg x) (le_of_lt (two_zpow_pos _))
  have hn : (0 : Rat) ≤ (roundHalfEven (|x| / 2 ^ (binaryExponent x - 52)) : Rat) := by
    exact_mod_cast roundHalfEven_nonneg _ hq
  have hp : (0 : Rat) ≤ (roundHalfEven (|x| / 2 ^ (binaryExponent x - 52)) : Rat) *
      2 ^ (binaryExponent x - 52) := mul_nonneg hn (le_of_lt (two_zpow_pos _))
  unfold roundDouble
  rw [if_neg hx]
  simp only []
  by_cases hneg : x < 0
  · rw [if_pos hneg, abs_neg, abs_of_nonneg hp]
  · rw [if_neg hneg, abs_of_nonneg hp]

theorem lt_two_zpow_binaryExponent (x : Rat) : |x| < 2 ^ (binaryExponent x + 1) := by
  have h1 : |x| < ((2 : Nat) : Rat) ^ (Int.log 2 |x| + 1) :=
    Int.lt_zpow_succ_log_self (by norm_num) |x|
  have h2 : ((2 : Nat) : Rat) ^ (Int.log 2 |x| + 1) ≤ ((2 : Nat) : Rat) ^ (binaryExponent x + 1) :=
    zpow_le_zpow_right₀ (by norm_num) (by unfold binaryExponent; omega)
  have h3 := lt_of_lt_of_le h1 h2
  simpa using h3

/-- A rounded value has a significand of at most 2^53. -/
theorem roundHalfEven_significand_le (x : Rat) :
    roundHalfEven (|x| / 2 ^ (binaryExponent x - 52)) ≤ 2 ^ 53 := by
  have hpos := two_zpow_pos (binaryExponent x - 52)
  have hlt : |x| / 2 ^ (binaryExponent x - 52) < ((2 ^ 53 : Int) : Rat) := by
    rw [div_lt_iff₀ hpos]
    have h := lt_two_zpow_binaryExponent x
    have e : (2 : Rat) ^ (binaryExponent x + 1) =
        ((2 ^ 53 : Int) : Rat) * 2 ^ (binaryExponent x - 52) := by
      have : binaryExponent x + 1 = 53 + (binaryExponent x - 52) := by ring
      rw [this, zpow_add₀ (by norm_num : (2 : Rat) ≠ 0)]
      norm_num
    rw [← e]
    exact h
  have hfl : ⌊|x| / 2 ^ (binaryExponent x - 52)⌋ < 2 ^ 53 := Int.floor_lt.mpr hlt
  have := roundHalfEven_le_floor_add_one (|x| / 2 ^ (binaryExponent x - 52))
  omega

/-- The values with a significand of at most 2^53 at any exponent; every rounded value is
one, and so is every finite binary64 value. -/
theorem roundDouble_significand (x : Rat) :
    ∃ n k : Int, |n| ≤ 2 ^ 53 ∧ |roundDouble x| = (|n| : Int) * (2 : Rat) ^ k := by
  by_cases hx : x = 0
  · exact ⟨0, 0, by norm_num, by simp [roundDouble, hx]⟩
  · have hq : 0 ≤ |x| / 2 ^ (binaryExponent x - 52) :=
      div_nonneg (abs_nonneg x) (le_of_lt (two_zpow_pos _))
    have hn := roundHalfEven_nonneg _ hq
    refine ⟨roundHalfEven (|x| / 2 ^ (binaryExponent x - 52)), binaryExponent x - 52, ?_, ?_⟩
    · rw [abs_of_nonneg hn]
      exact roundHalfEven_significand_le x
    · rw [abs_of_nonneg hn]
      exact abs_roundDouble x hx

/-- No value with a significand of at most 2^53 lies strictly between the adjacent binary64
values `6044629098073145 * 2^-79` and `6044629098073146 * 2^-79`, which enclose 1e-8. -/
theorem no_significand53_between (N k : Int) (hN0 : 0 ≤ N) (hN : N ≤ 2 ^ 53) :
    (N : Rat) * 2 ^ k ≤ 6044629098073145 / 2 ^ 79 ∨
      6044629098073146 / 2 ^ 79 ≤ (N : Rat) * 2 ^ k := by
  have h79 : (2 : Rat) ^ (-79 : Int) = 1 / 2 ^ 79 := by
    rw [zpow_neg]; norm_num
  by_cases hk : -79 ≤ k
  · obtain ⟨t, ht⟩ : ∃ t : Nat, k = (t : Int) + (-79) := ⟨(k + 79).toNat, by omega⟩
    have e : (N : Rat) * 2 ^ k = ((N * 2 ^ t : Int) : Rat) / 2 ^ 79 := by
      rw [ht, zpow_add₀ (by norm_num : (2 : Rat) ≠ 0), h79, zpow_natCast]
      push_cast
      ring
    rw [e]
    by_cases hT : N * 2 ^ t ≤ 6044629098073145
    · left
      apply div_le_div_of_nonneg_right _ (by positivity)
      exact_mod_cast hT
    · right
      have hT' : 6044629098073146 ≤ N * 2 ^ t := by omega
      apply div_le_div_of_nonneg_right _ (by positivity)
      exact_mod_cast hT'
  · left
    have hk' : k ≤ -80 := by omega
    have h1 : (2 : Rat) ^ k ≤ 2 ^ (-80 : Int) := zpow_le_zpow_right₀ (by norm_num) hk'
    have h80 : (2 : Rat) ^ (-80 : Int) = 1 / 2 ^ 80 := by
      rw [zpow_neg]; norm_num
    have hNq : (N : Rat) ≤ 2 ^ 53 := by exact_mod_cast hN
    have hN0q : (0 : Rat) ≤ N := by exact_mod_cast hN0
    calc (N : Rat) * 2 ^ k ≤ (N : Rat) * 2 ^ (-80 : Int) :=
          mul_le_mul_of_nonneg_left h1 hN0q
      _ ≤ 2 ^ 53 * 2 ^ (-80 : Int) :=
          mul_le_mul_of_nonneg_right hNq (le_of_lt (two_zpow_pos _))
      _ ≤ 6044629098073145 / 2 ^ 79 := by rw [h80]; norm_num

/-- On a rounded difference the test against `SKOSH` is the strict test against 1e-8. -/
theorem roundDouble_le_SKOSH_iff (x : Rat) :
    ¬ (fabs (roundDouble x) > SKOSH) ↔ |roundDouble x| < 1 / 100000000 := by
  obtain ⟨n, k, hn, hd⟩ := roundDouble_significand x
  rw [fabs_eq_abs, hd, gt_iff_lt, not_lt]
  have hgap := no_significand53_between |n| k (abs_nonneg n) hn
  have hlo1 : (6044629098073145 : Rat) / 2 ^ 79 < SKOSH := by unfold SKOSH; norm_num
  have hhi1 : SKOSH < (6044629098073146 : Rat) / 2 ^ 79 := by unfold SKOSH; norm_num
  have hlo2 : (6044629098073145 : Rat) / 2 ^ 79 < 1 / 100000000 := by norm_num
  have hhi2 : (1 : Rat) / 100000000 < 6044629098073146 / 2 ^ 79 := by norm_num
  constructor
  · intro h
    rcases hgap with hg | hg
    · exact lt_of_le_of_lt hg hlo2
    · exact absurd (lt_of_lt_of_le hhi1 hg) (not_lt.mpr h)
  · intro h
    rcases hgap with hg | hg
    · exact le_of_lt (lt_of_le_of_lt hg hlo1)
    · exact absurd (lt_of_lt_of_le hhi2 hg) (not_lt.mpr (le_of_lt h))

theorem dsub_self (a : Rat) : dsub a a = 0 := by
  simp [dsub, roundDouble]

/-- The geometry check in terms of the rounded differences. -/
theorem geometryAccepts_iff_rounded (m0 m1 : GridMetadata)
    (hw0 : NonNeg32 m0.bin_width) (hw1 : NonNeg32 m1.bin_width)
    (hh0 : NonNeg32 m0.bin_height) (hh1 : NonNeg32 m1.bin_height) :
    geometryAccepts m0 m1 = true ↔
      |m0.bin_width - m1.bin_width| ≤ 2 ∧
      |m0.bin_height - m1.bin_height| ≤ 2 ∧
      |dsub m0.min_x m1.min_x| < 1 / 100000000 ∧
      |dsub m0.min_y m1.min_y| < 1 / 100000000 ∧
      |dsub m0.x_bin_size_degrees m1.x_bin_size_degrees| < 1 / 100000000 ∧
      |dsub m0.y_bin_size_degrees m1.y_bin_size_degrees| < 1 / 100000000 := by
  unfold geometryAccepts geometryMismatch
  rw [abs32_sub32 _ _ hw0 hw1, abs32_sub32 _ _ hh0 hh1]
  simp only [Bool.not_eq_true', Bool.or_eq_false_iff, decide_eq_false_iff_not, and_assoc]
  unfold dsub
  rw [roundDouble_le_SKOSH_iff, roundDouble_le_SKOSH_iff, roundDouble_le_SKOSH_iff,
    roundDouble_le_SKOSH_iff]
  simp only [not_lt, gt_iff_lt]

/-- Two unit grids at the origin are accepted when their dimensions differ by at most 2. -/
theorem geometryAccepts_unitBag (w0 h0 w1 h1 : Int) (rows0 rows1 : List (List Rat))
    (hw0 : NonNeg32 w0) (hw1 : NonNeg32 w1) (hh0 : NonNeg32 h0) (hh1 : NonNeg32 h1)
    (hw : |w0 - w1| ≤ 2) (hh : |h0 - h1| ≤ 2) :
    geometryAccepts (unitBag w0 h0 rows0).meta (unitBag w1 h1 rows1).meta = true := by
  rw [geometryAccepts_iff_rounded _ _ hw0 hw1 hh0 hh1]
  simp only [unitBag, dsub_self]
  exact ⟨hw, hh, by norm_num, by norm_num, by norm_num, by norm_num⟩

theorem charBuffer512_length (uninit : Nat → Char) : (charBuffer512 uninit).length = 512 := by
  simp [charBuffer512]

theorem takeWhile_notNUL_append (p rest : List Char) (hp : NUL ∉ p) :
    (p ++ NUL :: rest).takeWhile (fun c => c != NUL) = p := by
  induction p with
  | nil => simp [List.takeWhile]
  | cons c p ih =>
    have hc : c ≠ NUL := fun h => hp (by simp [h])
    have hp2 : NUL ∉ p := fun h => hp (by simp [h])
    have hb : (c != NUL) = true := by simp [hc]
    rw [List.cons_append, List.takeWhile_cons, hb, ih hp2]
    rfl

/-- The name that `chrtr2FileName` leaves in `chrtr2_file`, in closed form. -/
theorem chrtr2FileName_eq (uninit : Nat → Char) (path : List Char)
    (hnul : NUL ∉ path) (h4 : 4 ≤ path.length) (h512 : path.length < 512) :
    chrtr2FileName uninit path = some (path.take (path.length - 4) ++ ['.', 'c', 'h', '2']) := by
  have hlen := charBuffer512_length uninit
  unfold chrtr2FileName
  have h1 : strcpy (charBuffer512 uninit) 0 path =
      some (path ++ NUL :: (charBuffer512 uninit).drop (path.length + 1)) := by
    unfold strcpy
    rw [if_pos (by omega)]
    simp
  rw [h1]
  simp only []
  have hs : strlen (path ++ NUL :: (charBuffer512 uninit).drop (path.length + 1)) = path.length := by
    unfold strlen
    rw [takeWhile_notNUL_append _ _ hnul]
  rw [hs, if_neg (by omega)]
  have h2 : strcpy (path ++ NUL :: (charBuffer512 uninit).drop (path.length + 1)) (path.length - 4)
      ['.', 'c', 'h', '2'] =
      some ((path.take (path.length - 4) ++ ['.', 'c', 'h', '2']) ++ NUL ::
        (path ++ NUL :: (charBuffer512 uninit).drop (path.length + 1)).drop (path.length + 1)) := by
    unfold strcpy
    rw [if_pos (by simp; omega)]
    have e : path.length - 4 + [('.' : Char), 'c', 'h', '2'].length + 1 = path.length + 1 := by
      simp; omega
    rw [e, List.take_append_of_le_length (by omega)]
  rw [h2]
  simp only []
  unfold cstring
  rw [takeWhile_notNUL_append]
  intro hmem
  rcases List.mem_append.mp hmem with h | h
  · exact hnul (List.mem_of_mem_take h)
  · revert h; decide

/-- C9: for a Grid A path of length `n` with `4 ≤ n < 512` (a C string: it holds no NUL), the
output raster path is produced, has length `n`, agrees with the input path on its first
`n - 4` characters, and ends in the four characters `.ch2`. -/
theorem chrtr2FileName_replaces_last_four (uninit : Nat → Char) (path : List Char)
    (hnul : NUL ∉ path) (h4 : 4 ≤ path.length) (h512 : path.length < 512) :
    ∃ name, chrtr2FileName uninit path = some name ∧
      name.length = path.length ∧
      name.take (path.length - 4) = path.take (path.length - 4) ∧
      name.drop (path.length - 4) = ['.', 'c', 'h', '2'] := by
  refine ⟨_, chrtr2FileName_eq uninit path hnul h4 h512, ?_, ?_, ?_⟩
  · simp; omega
  · rw [List.take_append_of_le_length (by simp)]
    simp
  · rw [List.drop_append_of_le_length (by simp)]
    simp

/-- C9 at the path `a.bag`. -/
theorem chrtr2FileName_replaces_last_four_witness :
    ∃ name, chrtr2FileName (fun _ => 'x') ['a', '.', 'b', 'a', 'g'] = some name ∧
      name.length = ['a', '.', 'b', 'a', 'g'].length ∧
      name.take (['a', '.', 'b', 'a', 'g'].length - 4) =
        ['a', '.', 'b', 'a', 'g'].take (['a', '.', 'b', 'a', 'g'].length - 4) ∧
      name.drop (['a', '.', 'b', 'a', 'g'].length - 4) = ['.', 'c', 'h', '2'] :=
  chrtr2FileName_replaces_last_four (fun _ => 'x') ['a', '.', 'b', 'a', 'g']
    (by decide) (by decide) (by decide)

/-! ## The run: usage and the fatal geometry mismatch -/

theorem copyArgument_eq (uninit : Nat → Char) (a : List Char) (hnul : NUL ∉ a)
    (h512 : a.length < 512) : copyArgument uninit (some a) = some a := by
  have hlen := charBuffer512_length uninit
  unfold copyArgument strcpy
  simp only []
  rw [if_pos (by omega)]
  simp only [Option.map_some', List.take_zero, List.nil_append]
  unfold cstring
  rw [takeWhile_notNUL_append _ _ hnul]

/-- C8 fails on the code for exactly one positional argument: for the command line
`bag_residual a.bag` the test `optind >= argc` is false, no usage text is printed, the first
path is copied, and the second `strcpy` reads the null pointer `argv[argc]`. With no
positional argument the run does end in the usage text and exit status -1, before any path
is copied or file opened. -/
theorem main_one_positional_argument (w : World) :
    main w oneArgumentCommandLine =
      { trace := [.banner, .putenv, .strcpyBagFile 0 ['a', '.', 'b', 'a', 'g']],
        status := .undefined } ∧
    Event.usage ∉ (main w oneArgumentCommandLine).trace ∧
    (∃ e ∈ (main w oneArgumentCommandLine).trace, e.touchesInput = true) ∧
    (∀ c : CommandLine, c.argv.length ≤ c.optind →
      main w c = { trace := [.banner, .usage], status := .exit (-1) }) := by
  have h0 : copyArgument (w.bag_file_uninit 0) (some ['a', '.', 'b', 'a', 'g']) =
      some ['a', '.', 'b', 'a', 'g'] := copyArgument_eq _ _ (by decide) (by decide)
  have hm : main w oneArgumentCommandLine =
      { trace := [.banner, .putenv, .strcpyBagFile 0 ['a', '.', 'b', 'a', 'g']],
        status := .undefined } := by
    have h1 : copyArgument (w.bag_file_uninit 1) none = none := rfl
    unfold main
    simp [oneArgumentCommandLine, h0, h1]
  rw [hm]
  refine ⟨rfl, by simp,
    ⟨_, List.mem_cons_of_mem _ (List.mem_cons_of_mem _ (List.mem_cons_self _ _)), rfl⟩, ?_⟩
  intro c hc
  unfold main
  by_cases hopt : c.getopt.any reachesDefault = true
  · simp [hopt]
  · simp [hopt, hc]

/-- C7: when the two paths of the command line are copied and name BAG files whose metadata
the geometry check rejects, the run ends with exit status -1 and none of its events creates
the raster, writes a record or prints to stdout. -/
theorem main_geometry_mismatch_no_output (w : World) (c : CommandLine)
    (bag_file0 bag_file1 : List Char) (g0 g1 : BagFile)
    (hcopy0 : copyArgument (w.bag_file_uninit 0) c.argv[c.optind]? = some bag_file0)
    (hcopy1 : copyArgument (w.bag_file_uninit 1) c.argv[c.optind + 1]? = some bag_file1)
    (hopen0 : w.bagFileOpen bag_file0 = some g0)
    (hopen1 : w.bagFileOpen bag_file1 = some g1)
    (hrej : geometryMismatch g0.meta g1.meta = true) :
    (main w c).status = .exit (-1) ∧ ∀ e ∈ (main w c).trace, e.isOutput = false := by
  unfold main
  simp only []
  by_cases hopt : c.getopt.any reachesDefault = true
  · rw [if_pos hopt]
    simp [Event.isOutput]
  · rw [if_neg hopt]
    by_cases hind : c.optind ≥ c.argv.length
    · rw [if_pos hind]
      simp [Event.isOutput]
    · rw [if_neg hind, hcopy0]
      simp only [hcopy1]
      unfold openBag
      simp only [hopen0, hopen1]
      by_cases hc0 : w.calloc g0.meta.bin_width = true
      · rw [if_pos hc0]
        simp only []
        by_cases hc1 : w.calloc g1.meta.bin_width = true
        · rw [if_pos hc1]
          simp only [checkAndProduce, hrej, if_true]
          simp [Event.isOutput]
        · rw [if_neg hc1]
          simp [Event.isOutput]
      · rw [if_neg hc0]
        simp [Event.isOutput]

/-- C7 at the command line `bag_residual a.bag c.bag`, where the grids are 3 and 6 bins
wide. -/
theorem main_geometry_mismatch_no_output_witness :
    (main mismatchWorld mismatchCommandLine).status = .exit (-1) ∧
    ∀ e ∈ (main mismatchWorld mismatchCommandLine).trace, e.isOutput = false :=
  main_geometry_mismatch_no_output mismatchWorld mismatchCommandLine
    ['a', '.', 'b', 'a', 'g'] ['c', '.', 'b', 'a', 'g']
    (unitBag 3 1 [[10, 20, 30]]) (unitBag 6 1 [[9, 21, 29, 1, 1, 1]])
    (copyArgument_eq _ _ (by decide) (by decide)) (copyArgument_eq _ _ (by decide) (by decide))
    (by rfl) (by rfl) (by with_unfolding_all decide)

/-! ## The scan is the run of its cell visits -/

theorem scan_rows_eq (NULL_ELEVATION : Rat) (g0 g1 : BagFile) (n : Nat) :
    (List.range n).foldlM (rowStep NULL_ELEVATION g0 g1)
      { data0 := callocRow g0.meta.bin_width, data1 := callocRow g1.meta.bin_width,
        scan := ScanState.init } =
    (runCells NULL_ELEVATION ((List.range n).flatMap (rowCells g0 g1)) ScanState.init).map
      (fun s => { data0 := bufferAfter g0 n, data1 := bufferAfter g1 n, scan := s }) := by
  induction n with
  | zero => simp [runCells, bufferAfter]
  | succ n ih =>
    rw [List.range_succ, List.foldlM_append, ih, List.flatMap_append]
    unfold runCells
    rw [List.foldlM_append]
    cases h : List.foldlM (CellVisit.step NULL_ELEVATION) ScanState.init
        ((List.range n).flatMap (rowCells g0 g1)) with
    | none => simp
    | some s =>
      simp only [Option.map_some', Option.bind_eq_bind, Option.some_bind, List.flatMap_cons,
        List.flatMap_nil, List.append_nil, List.foldlM_cons, List.foldlM_nil]
      unfold rowStep rowLoop rowCells
      rw [List.foldlM_map]
      simp only [bufferAfter, CellVisit.step]
      cases List.foldlM (fun x y => cellStep NULL_ELEVATION n
          (readInto (bufferAfter g0 n) (bagReadRow g0 n 0 (sub32 g0.meta.bin_width 1)))
          (readInto (bufferAfter g1 n) (bagReadRow g1 n 0 (sub32 g1.meta.bin_width 1))) x y) s
          (List.range g0.meta.bin_width.toNat) <;> simp

/-- The scan is the loop body run over the visits of `scanCells`, from the initial state. -/
theorem scan_eq_runCells (NULL_ELEVATION : Rat) (g0 g1 : BagFile) :
    scan NULL_ELEVATION g0 g1 = runCells NULL_ELEVATION (scanCells g0 g1) ScanState.init := by
  unfold scan scanCells
  rw [scan_rows_eq]
  cases runCells NULL_ELEVATION
    ((List.range g0.meta.bin_height.toNat).flatMap (rowCells g0 g1)) ScanState.init <;> simp

theorem step_eq_apply (NULL_ELEVATION : Rat) (s s' : ScanState) (c : CellVisit)
    (h : c.step NULL_ELEVATION s = some s') : s' = c.apply NULL_ELEVATION s := by
  unfold CellVisit.step cellStep at h
  unfold CellVisit.apply CellVisit.valid CellVisit.elevA CellVisit.elevB
  cases h0 : c.data0[c.j]? with
  | none => rw [h0] at h; simp at h
  | some a =>
    rw [h0] at h
    simp only [] at h
    by_cases ha : a < NULL_ELEVATION
    · rw [if_pos ha] at h
      cases h1 : c.data1[c.j]? with
      | none => rw [h1] at h; simp at h
      | some b =>
        rw [h1] at h
        simp only [] at h
        by_cases hb : b < NULL_ELEVATION
        · rw [if_pos hb] at h
          simp [ha, hb, ← Option.some.inj h]
        · rw [if_neg hb] at h
          simp [ha, hb, ← Option.some.inj h]
    · rw [if_neg ha] at h
      cases h1 : c.data1[c.j]? <;> simp [ha, ← Option.some.inj h]

theorem runCells_eq_foldl (NULL_ELEVATION : Rat) (cs : List CellVisit) :
    ∀ s s', runCells NULL_ELEVATION cs s = some s' → s' = cs.foldl (CellVisit.apply NULL_ELEVATION) s := by
  induction cs with
  | nil => intro s s' h; simpa [runCells] using h.symm
  | cons c cs ih =>
    intro s s' h
    unfold runCells at h
    rw [List.foldlM_cons] at h
    cases hc : c.step NULL_ELEVATION s with
    | none => rw [hc] at h; simp at h
    | some s1 =>
      rw [hc] at h
      simp only [Option.bind_eq_bind, Option.some_bind] at h
      rw [List.foldl_cons, ← step_eq_apply _ _ _ _ hc]
      exact ih s1 s' h

/-! ## What the accumulators hold after a list of visits -/

theorem apply_of_valid (NULL_ELEVATION : Rat) (s : ScanState) (c : CellVisit)
    (h : c.valid NULL_ELEVATION = true) :
    c.apply NULL_ELEVATION s = validCell c.i c.j c.elevA c.elevB s := by
  unfold CellVisit.apply; rw [if_pos h]

theorem apply_of_not_valid (NULL_ELEVATION : Rat) (s : ScanState) (c : CellVisit)
    (h : c.valid NULL_ELEVATION = false) : c.apply NULL_ELEVATION s = s := by
  unfold CellVisit.apply; rw [h]; rfl

theorem foldl_apply_written (NULL_ELEVATION : Rat) (cs : List CellVisit) :
    ∀ s, (cs.foldl (CellVisit.apply NULL_ELEVATION) s).written =
      s.written ++ (cs.filter (CellVisit.valid NULL_ELEVATION)).map CellVisit.writeCall := by
  induction cs with
  | nil => intro s; simp
  | cons c cs ih =>
    intro s
    rw [List.foldl_cons, ih]
    cases hv : c.valid NULL_ELEVATION with
    | true =>
      rw [apply_of_valid _ _ _ hv, List.filter_cons_of_pos hv]
      simp [validCell, CellVisit.writeCall, CellVisit.diff]
    | false =>
      rw [apply_of_not_valid _ _ _ hv, List.filter_cons_of_neg (by simp [hv])]

theorem foldl_apply_sum (NULL_ELEVATION : Rat) (cs : List CellVisit) :
    ∀ s, (cs.foldl (CellVisit.apply NULL_ELEVATION) s).acc.sum =
      s.acc.sum + ((cs.filter (CellVisit.valid NULL_ELEVATION)).map CellVisit.diff).sum := by
  induction cs with
  | nil => intro s; simp
  | cons c cs ih =>
    intro s
    rw [List.foldl_cons, ih]
    cases hv : c.valid NULL_ELEVATION with
    | true =>
      rw [apply_of_valid _ _ _ hv, List.filter_cons_of_pos hv]
      simp [validCell, CellVisit.diff, add_assoc]
    | false =>
      rw [apply_of_not_valid _ _ _ hv, List.filter_cons_of_neg (by simp [hv])]

theorem foldl_apply_sum2 (NULL_ELEVATION : Rat) (cs : List CellVisit) :
    ∀ s, (cs.foldl (CellVisit.apply NULL_ELEVATION) s).acc.sum2 =
      s.acc.sum2 +
        ((cs.filter (CellVisit.valid NULL_ELEVATION)).map (fun c => c.diff * c.diff)).sum := by
  induction cs with
  | nil => intro s; simp
  | cons c cs ih =>
    intro s
    rw [List.foldl_cons, ih]
    cases hv : c.valid NULL_ELEVATION with
    | true =>
      rw [apply_of_valid _ _ _ hv, List.filter_cons_of_pos hv]
      simp [validCell, CellVisit.diff, add_assoc]
    | false =>
      rw [apply_of_not_valid _ _ _ hv, List.filter_cons_of_neg (by simp [hv])]

theorem foldl_apply_counts (NULL_ELEVATION : Rat) (cs : List CellVisit) :
    ∀ s, 0 ≤ s.acc.neg_count → 0 ≤ s.acc.pos_count →
      s.acc.neg_count + s.acc.pos_count + (cs.countP (CellVisit.valid NULL_ELEVATION) : Int)
        < 2147483648 →
      (cs.foldl (CellVisit.apply NULL_ELEVATION) s).acc.neg_count =
        s.acc.neg_count +
          (cs.countP (fun c => c.valid NULL_ELEVATION && decide (c.diff < 0)) : Int) ∧
      (cs.foldl (CellVisit.apply NULL_ELEVATION) s).acc.pos_count =
        s.acc.pos_count +
          (cs.countP (fun c => c.valid NULL_ELEVATION && !decide (c.diff < 0)) : Int) := by
  induction cs with
  | nil => intro s _ _ _; simp
  | cons c cs ih =>
    intro s hn hp hb
    rw [List.foldl_cons]
    cases hv : c.valid NULL_ELEVATION with
    | true =>
      rw [List.countP_cons_of_pos _ _ hv] at hb
      push_cast at hb
      rw [apply_of_valid _ _ _ hv]
      by_cases hd : c.diff < 0
      · have hd' : c.elevA - c.elevB < 0 := hd
        have e1 : (validCell c.i c.j c.elevA c.elevB s).acc.neg_count = s.acc.neg_count + 1 := by
          simp only [validCell, if_pos hd', add32]
          exact wrap32_of_range _ (by omega) (by omega)
        have e2 : (validCell c.i c.j c.elevA c.elevB s).acc.pos_count = s.acc.pos_count := by
          simp only [validCell, if_pos hd']
        obtain ⟨r1, r2⟩ := ih (validCell c.i c.j c.elevA c.elevB s) (by rw [e1]; omega)
          (by rw [e2]; exact hp) (by rw [e1, e2]; omega)
        rw [r1, r2, e1, e2, List.countP_cons_of_pos _ _ (by simp [hv, hd]),
          List.countP_cons_of_neg _ _ (by simp [hv, hd])]
        push_cast
        constructor <;> ring
      · have hd' : ¬ (c.elevA - c.elevB < 0) := hd
        have e1 : (validCell c.i c.j c.elevA c.elevB s).acc.neg_count = s.acc.neg_count := by
          simp only [validCell, if_neg hd']
        have e2 : (validCell c.i c.j c.elevA c.elevB s).acc.pos_count = s.acc.pos_count + 1 := by
          simp only [validCell, if_neg hd', add32]
          exact wrap32_of_range _ (by omega) (by omega)
        obtain ⟨r1, r2⟩ := ih (validCell c.i c.j c.elevA c.elevB s) (by rw [e1]; exact hn)
          (by rw [e2]; omega) (by rw [e1, e2]; omega)
        rw [r1, r2, e1, e2, List.countP_cons_of_neg _ _ (by simp [hv, hd]),
          List.countP_cons_of_pos _ _ (by simp [hv, hd])]
        push_cast
        constructor <;> ring
    | false =>
      rw [List.countP_cons_of_neg _ _ (by simp [hv])] at hb
      rw [apply_of_not_valid _ _ _ hv, List.countP_cons_of_neg _ _ (by simp [hv]),
        List.countP_cons_of_neg _ _ (by simp [hv])]
      exact ih s hn hp hb

theorem countP_valid_split (NULL_ELEVATION : Rat) (cs : List CellVisit) :
    cs.countP (CellVisit.valid NULL_ELEVATION) =
      cs.countP (fun c => c.valid NULL_ELEVATION && decide (c.diff < 0)) +
      cs.countP (fun c => c.valid NULL_ELEVATION && !decide (c.diff < 0)) := by
  induction cs with
  | nil => simp
  | cons c cs ih =>
    simp only [List.countP_cons, ih]
    cases c.valid NULL_ELEVATION <;> by_cases hd : c.diff < 0 <;> simp [hd] <;> omega

/-! ## The records written -/

theorem readInto_length (data : List Rat) (res : Option (List Rat))
    (h : ∀ r, res = some r → r.length ≤ data.length) :
    (readInto data res).length = data.length := by
  cases res with
  | none => rfl
  | some r =>
    have := h r rfl
    simp only [readInto, List.length_append, List.length_drop]
    omega

theorem bagReadRow_length_le (g : BagFile) (row : Nat) (r : List Rat)
    (h : bagReadRow g row 0 (sub32 g.meta.bin_width 1) = some r) :
    r.length ≤ g.meta.bin_width.toNat := by
  unfold bagReadRow at h
  by_cases hc : 0 ≤ (0 : Int) ∧ 0 ≤ sub32 g.meta.bin_width 1 ∧
      sub32 g.meta.bin_width 1 < g.meta.bin_width
  · rw [if_pos hc] at h
    cases hr : g.rows[row]? with
    | none => rw [hr] at h; simp at h
    | some x =>
      rw [hr] at h
      simp only [Option.some.injEq] at h
      rw [← h, List.length_take]
      have := hc.2.2
      omega
  · rw [if_neg hc] at h
    simp at h

theorem bufferAfter_length (g : BagFile) (n : Nat) :
    (bufferAfter g n).length = g.meta.bin_width.toNat := by
  induction n with
  | zero => simp [bufferAfter, callocRow]
  | succ n ih =>
    rw [bufferAfter, readInto_length _ _ (fun r hr => by
      rw [ih]; exact bagReadRow_length_le g n r hr), ih]

theorem mem_scanCells (g0 g1 : BagFile) (c : CellVisit) (h : c ∈ scanCells g0 g1) :
    c.j < g0.meta.bin_width.toNat ∧ c.data0 = bufferAfter g0 (c.i + 1) ∧
      c.data1 = bufferAfter g1 (c.i + 1) := by
  unfold scanCells rowCells at h
  rw [List.mem_flatMap] at h
  obtain ⟨i, -, hi⟩ := h
  rw [List.mem_map] at hi
  obtain ⟨j, hj, rfl⟩ := hi
  exact ⟨List.mem_range.mp hj, rfl, rfl⟩

theorem mem_scanCells_row (g0 g1 : BagFile) (c : CellVisit) (h : c ∈ scanCells g0 g1) :
    c.i < g0.meta.bin_height.toNat := by
  unfold scanCells rowCells at h
  rw [List.mem_flatMap] at h
  obtain ⟨i, hi, hc⟩ := h
  rw [List.mem_map] at hc
  obtain ⟨j, -, rfl⟩ := hc
  exact List.mem_range.mp hi

theorem step_of_inBounds (NULL_ELEVATION : Rat) (s : ScanState) (c : CellVisit)
    (h0 : c.j < c.data0.length) (h1 : c.j < c.data1.length) :
    c.step NULL_ELEVATION s = some (c.apply NULL_ELEVATION s) := by
  unfold CellVisit.step cellStep CellVisit.apply CellVisit.valid CellVisit.elevA CellVisit.elevB
  rw [List.getElem?_eq_getElem h0, List.getElem?_eq_getElem h1]
  simp only [Option.getD_some]
  by_cases ha : c.data0[c.j] < NULL_ELEVATION <;> by_cases hb : c.data1[c.j] < NULL_ELEVATION <;>
    simp [ha, hb]

theorem runCells_of_inBounds (NULL_ELEVATION : Rat) (cs : List CellVisit)
    (h : ∀ c ∈ cs, c.j < c.data0.length ∧ c.j < c.data1.length) :
    ∀ s, runCells NULL_ELEVATION cs s = some (cs.foldl (CellVisit.apply NULL_ELEVATION) s) := by
  induction cs with
  | nil => intro s; rfl
  | cons c cs ih =>
    intro s
    unfold runCells
    rw [List.foldlM_cons, step_of_inBounds NULL_ELEVATION s c (h c (by simp)).1 (h c (by simp)).2]
    exact ih (fun d hd => h d (List.mem_cons_of_mem _ hd)) _

theorem scanCells_inBounds (g0 g1 : BagFile)
    (hwidth : g0.meta.bin_width ≤ g1.meta.bin_width) :
    ∀ c ∈ scanCells g0 g1, c.j < c.data0.length ∧ c.j < c.data1.length := by
  intro c hc
  obtain ⟨hj, h0, h1⟩ := mem_scanCells g0 g1 c hc
  rw [h0, h1, bufferAfter_length, bufferAfter_length]
  constructor
  · exact hj
  · have : g0.meta.bin_width.toNat ≤ g1.meta.bin_width.toNat := Int.toNat_le_toNat hwidth
    omega

/-- When grid B is at least as wide as grid A, the scan stays inside both row buffers. -/
theorem scan_of_width_le (NULL_ELEVATION : Rat) (g0 g1 : BagFile)
    (hwidth : g0.meta.bin_width ≤ g1.meta.bin_width) :
    scan NULL_ELEVATION g0 g1 =
      some ((scanCells g0 g1).foldl (CellVisit.apply NULL_ELEVATION) ScanState.init) := by
  rw [scan_eq_runCells]
  exact runCells_of_inBounds NULL_ELEVATION _ (scanCells_inBounds g0 g1 hwidth) _

theorem bufferAfter_succ_eq_row (g : BagFile) (hw : NonNeg32 g.meta.bin_width)
    (hwf : g.WellFormed) (i : Nat) (r : List Rat) (hr : g.rows[i]? = some r) :
    bufferAfter g (i + 1) = r := by
  have hmem : r ∈ g.rows := by
    obtain ⟨hi, he⟩ := List.getElem?_eq_some.mp hr
    rw [← he]
    exact List.getElem_mem hi
  have hlen : (r.length : Int) = g.meta.bin_width := hwf.2 r hmem
  have hbuf := bufferAfter_length g i
  obtain ⟨hw1, hw2⟩ := hw
  rw [bufferAfter]
  by_cases h0 : g.meta.bin_width = 0
  · have hr0 : r = [] := List.length_eq_zero.mp (by omega)
    have hb0 : bufferAfter g i = [] := List.length_eq_zero.mp (by rw [hbuf, h0]; rfl)
    have : bagReadRow g i 0 (sub32 g.meta.bin_width 1) = none := by
      unfold bagReadRow
      rw [if_neg]
      rw [h0]
      decide
    rw [this, readInto, hb0, hr0]
  · have hs : sub32 g.meta.bin_width 1 = g.meta.bin_width - 1 :=
      wrap32_of_range _ (by omega) (by omega)
    have : bagReadRow g i 0 (sub32 g.meta.bin_width 1) = some r := by
      unfold bagReadRow
      rw [hs, if_pos (by omega), hr]
      simp only [Int.toNat_zero, List.drop_zero, Option.some.injEq]
      apply List.take_of_length_le
      omega
    rw [this, readInto, List.drop_of_length_le (by omega), List.append_nil]

theorem filter_map_flatMap {α β γ : Type} (l : List α) (f : α → List β) (p : β → Bool)
    (g : β → γ) :
    ((l.flatMap f).filter p).map g = l.flatMap (fun i => ((f i).filter p).map g) := by
  induction l with
  | nil => rfl
  | cons a l ih => simp [List.flatMap_cons, List.filter_append, ih]

theorem filter_map_map {α β γ : Type} (l : List α) (f : α → β) (p : β → Bool) (g : β → γ) :
    ((l.map f).filter p).map g =
      l.filterMap (fun x => if p (f x) then some (g (f x)) else none) := by
  induction l with
  | nil => rfl
  | cons a l ih =>
    by_cases h : p (f a) = true
    · simp [List.filterMap_cons, h, ← ih]
    · simp [List.filterMap_cons, h, ← ih]

theorem rows_getElem?_of_lt (g : BagFile) (hwf : g.WellFormed) (i : Nat)
    (hi : (i : Int) < g.meta.bin_height) : ∃ r, g.rows[i]? = some r := by
  have : i < g.rows.length := by have := hwf.1; omega
  exact ⟨g.rows[i], List.getElem?_eq_getElem this⟩

/-- When both files are well formed and grid B covers grid A, the records of the valid visits
are the records that the specification asks for. -/
theorem visit_records_eq_residualRecords (NULL_ELEVATION : Rat) (g0 g1 : BagFile)
    (hw0 : NonNeg32 g0.meta.bin_width) (hw1 : NonNeg32 g1.meta.bin_width)
    (hwf0 : g0.WellFormed) (hwf1 : g1.WellFormed)
    (hheight : g0.meta.bin_height ≤ g1.meta.bin_height) :
    ((scanCells g0 g1).filter (CellVisit.valid NULL_ELEVATION)).map CellVisit.writeCall =
      residualRecords NULL_ELEVATION g0 g1 := by
  unfold scanCells residualRecords
  rw [filter_map_flatMap]
  apply List.flatMap_congr
  intro i hi
  have hi' : i < g0.meta.bin_height.toNat := List.mem_range.mp hi
  have hi0 : (i : Int) < g0.meta.bin_height := by omega
  obtain ⟨r0, hr0⟩ := rows_getElem?_of_lt g0 hwf0 i hi0
  obtain ⟨r1, hr1⟩ := rows_getElem?_of_lt g1 hwf1 i (by omega)
  unfold rowCells
  rw [bufferAfter_succ_eq_row g0 hw0 hwf0 i r0 hr0, bufferAfter_succ_eq_row g1 hw1 hwf1 i r1 hr1,
    filter_map_map]
  apply List.filterMap_congr
  intro j _
  simp only [BagFile.elevation, hr0, hr1, CellVisit.valid, CellVisit.writeCall, CellVisit.diff,
    CellVisit.elevA, CellVisit.elevB]
  cases h0 : r0[j]? with
  | none => simp
  | some a =>
    cases h1 : r1[j]? with
    | none => simp
    | some b =>
      by_cases ha : a < NULL_ELEVATION <;> by_cases hb : b < NULL_ELEVATION <;> simp [ha, hb]

/-- When grid B has at least as many columns as grid A, the scan completes and the records
written are, in row-major order, those of the visits at which both row buffers hold an
elevation strictly below the sentinel; when both files are well formed and grid B also has at
least as many rows as grid A, these are the records that the specification asks for. -/
theorem scan_written_of_width_le (NULL_ELEVATION : Rat) (g0 g1 : BagFile)
    (hw0 : NonNeg32 g0.meta.bin_width) (hw1 : NonNeg32 g1.meta.bin_width)
    (hwidth : g0.meta.bin_width ≤ g1.meta.bin_width) :
    ∃ s, scan NULL_ELEVATION g0 g1 = some s ∧
      s.written =
        ((scanCells g0 g1).filter (CellVisit.valid NULL_ELEVATION)).map CellVisit.writeCall ∧
      (g0.WellFormed → g1.WellFormed → g0.meta.bin_height ≤ g1.meta.bin_height →
        s.written = residualRecords NULL_ELEVATION g0 g1) := by
  refine ⟨_, scan_of_width_le NULL_ELEVATION g0 g1 hwidth, ?_, ?_⟩
  · rw [foldl_apply_written]
    rfl
  · intro hwf0 hwf1 hheight
    rw [foldl_apply_written, visit_records_eq_residualRecords NULL_ELEVATION g0 g1 hw0 hw1 hwf0
      hwf1 hheight]
    rfl

/-- C2 fails on the code for an accepted pair in which grid B is narrower than grid A: the
grids `narrowA` (two bins wide) and `narrowB` (one bin wide) are well formed and accepted by
the geometry check, and the scan reads `data[1][1]` outside the one-element row buffer of
grid B, so it does not produce the records of the claim. For every pair of well-formed grids
in which grid B has at least as many columns and rows as grid A, the scan does write exactly
the records of the claim. -/
theorem scan_records_fail_for_narrower_grid_B :
    (geometryAccepts narrowA.meta narrowB.meta = true ∧
      narrowA.WellFormed ∧ narrowB.WellFormed ∧
      scan exampleNull narrowA narrowB = none ∧
      ¬ ∃ s, scan exampleNull narrowA narrowB = some s ∧
        s.written = residualRecords exampleNull narrowA narrowB) ∧
    (∀ (NULL_ELEVATION : Rat) (g0 g1 : BagFile),
      NonNeg32 g0.meta.bin_width → NonNeg32 g1.meta.bin_width →
      g0.WellFormed → g1.WellFormed →
      g0.meta.bin_width ≤ g1.meta.bin_width → g0.meta.bin_height ≤ g1.meta.bin_height →
      ∃ s, scan NULL_ELEVATION g0 g1 = some s ∧
        s.written = residualRecords NULL_ELEVATION g0 g1) := by
  have h : scan exampleNull narrowA narrowB = none := by with_unfolding_all decide
  refine ⟨⟨geometryAccepts_unitBag 2 1 1 1 _ _ (by decide) (by decide) (by decide) (by decide)
    (by decide) (by decide), ⟨rfl, by decide⟩, ⟨rfl, by decide⟩, h, ?_⟩, ?_⟩
  · rw [h]
    simp
  · intro NULL_ELEVATION g0 g1 hw0 hw1 hwf0 hwf1 hwidth hheight
    obtain ⟨s, hs, -, hrec⟩ := scan_written_of_width_le NULL_ELEVATION g0 g1 hw0 hw1 hwidth
    exact ⟨s, hs, hrec hwf0 hwf1 hheight⟩

/-! ## The counters -/

theorem scanCells_length (g0 g1 : BagFile) :
    (scanCells g0 g1).length = g0.meta.bin_height.toNat * g0.meta.bin_width.toNat := by
  unfold scanCells rowCells
  rw [List.length_flatMap]
  have e : (List.length ∘ fun i => List.map
      (fun j => ({ i := i, j := j, data0 := bufferAfter g0 (i + 1),
                   data1 := bufferAfter g1 (i + 1) } : CellVisit))
      (List.range g0.meta.bin_width.toNat)) = fun _ => g0.meta.bin_width.toNat := by
    funext i
    simp
  rw [e, List.map_const', List.sum_replicate, List.length_range, smul_eq_mul]

theorem cellStep_of_not_valid (NULL_ELEVATION : Rat) (i j : Nat) (data0 data1 : List Rat)
    (s : ScanState) (a b : Rat) (h0 : data0[j]? = some a) (h1 : data1[j]? = some b)
    (h : ¬ (a < NULL_ELEVATION ∧ b < NULL_ELEVATION)) :
    cellStep NULL_ELEVATION i data0 data1 s j = some s := by
  unfold cellStep
  rw [h0, h1]
  simp only []
  by_cases ha : a < NULL_ELEVATION
  · rw [if_pos ha, if_neg (fun hb => h ⟨ha, hb⟩)]
  · rw [if_neg ha]

/-- The counters after the visits `cs` of an initial part of the scan, in terms of the row
buffers of the visits. -/
theorem counters_of_prefix (NULL_ELEVATION : Rat) (g0 g1 : BagFile)
    (hcells : g0.meta.bin_height.toNat * g0.meta.bin_width.toNat < 2147483648)
    (cs : List CellVisit) (s : ScanState) (hpre : cs <+: scanCells g0 g1)
    (hrun : runCells NULL_ELEVATION cs ScanState.init = some s) :
    s.acc.neg_count + s.acc.pos_count = (cs.countP (CellVisit.valid NULL_ELEVATION) : Int) ∧
    s.acc.neg_count =
      (cs.countP (fun c => c.valid NULL_ELEVATION && decide (c.diff < 0)) : Int) ∧
    s.acc.pos_count =
      (cs.countP (fun c => c.valid NULL_ELEVATION && decide (0 ≤ c.diff)) : Int) := by
  have hlen : cs.length ≤ (scanCells g0 g1).length := hpre.length_le
  rw [scanCells_length] at hlen
  have hcount : cs.countP (CellVisit.valid NULL_ELEVATION) ≤ cs.length := List.countP_le_length _
  have hs := runCells_eq_foldl NULL_ELEVATION cs _ _ hrun
  obtain ⟨r1, r2⟩ := foldl_apply_counts NULL_ELEVATION cs ScanState.init (by decide) (by decide)
    (by simp only [ScanState.init, Stats.init]; omega)
  rw [← hs] at r1 r2
  simp only [ScanState.init, Stats.init, zero_add] at r1 r2
  have hge : (fun c : CellVisit => c.valid NULL_ELEVATION && decide (0 ≤ c.diff)) =
      (fun c : CellVisit => c.valid NULL_ELEVATION && !decide (c.diff < 0)) := by
    funext c
    by_cases hd : c.diff < 0
    · simp [hd, not_le.mpr hd]
    · simp [hd, not_lt.mp hd]
  rw [hge]
  refine ⟨?_, r1, r2⟩
  rw [r1, r2, countP_valid_split]
  push_cast
  rfl

theorem scanCells_map_position (g0 g1 : BagFile) :
    (scanCells g0 g1).map (fun c => (c.i, c.j)) = cellPositions g0 := by
  unfold scanCells cellPositions rowCells
  rw [List.map_flatMap]
  apply List.flatMap_congr
  intro i _
  rw [List.map_map]
  rfl

/-- When both files are well formed and grid B covers grid A, a visit of the scan is valid
exactly when its cell is valid in both grids, and its residual is that of the grids. -/
theorem visit_agrees_with_grids (NULL_ELEVATION : Rat) (g0 g1 : BagFile)
    (hw0 : NonNeg32 g0.meta.bin_width) (hw1 : NonNeg32 g1.meta.bin_width)
    (hwf0 : g0.WellFormed) (hwf1 : g1.WellFormed)
    (hheight : g0.meta.bin_height ≤ g1.meta.bin_height)
    (c : CellVisit) (hc : c ∈ scanCells g0 g1) :
    c.valid NULL_ELEVATION = validInBoth NULL_ELEVATION g0 g1 (c.i, c.j) ∧
      c.diff = residualAt g0 g1 (c.i, c.j) := by
  obtain ⟨-, h0, h1⟩ := mem_scanCells g0 g1 c hc
  have hi := mem_scanCells_row g0 g1 c hc
  have hi0 : (c.i : Int) < g0.meta.bin_height := by omega
  obtain ⟨r0, hr0⟩ := rows_getElem?_of_lt g0 hwf0 c.i hi0
  obtain ⟨r1, hr1⟩ := rows_getElem?_of_lt g1 hwf1 c.i (by omega)
  rw [bufferAfter_succ_eq_row g0 hw0 hwf0 c.i r0 hr0] at h0
  rw [bufferAfter_succ_eq_row g1 hw1 hwf1 c.i r1 hr1] at h1
  simp only [CellVisit.valid, validInBoth, residualAt, CellVisit.diff, CellVisit.elevA,
    CellVisit.elevB, BagFile.elevation, hr0, hr1, h0, h1, and_self]

theorem countP_take_agree {α β : Type} (cs : List α) (pos : α → β) (p : α → Bool)
    (q : β → Bool) (h : ∀ c ∈ cs, p c = q (pos c)) (k : Nat) :
    (cs.take k).countP p = ((cs.map pos).take k).countP q := by
  rw [← List.map_take, List.countP_map]
  apply List.countP_congr
  intro c hc
  have := h c (List.mem_of_mem_take hc)
  simp [this]

/-- C5 fails on the code for an accepted pair in which grid B does not cover grid A. For the
well-formed grids `shortA` (three rows) and `shortB` (one row), which the geometry check
accepts, the scan ends with `neg_count + pos_count = 3` while one cell is valid in both
grids: for the rows that grid B lacks the row buffer keeps the last row read. For every pair
of well-formed grids in which grid B has at least as many columns and rows as grid A, and
grid A has fewer than 2^31 cells, the state after each number `k` of processed cells exists
and `neg_count + pos_count` is the number of those cells that are valid in both grids,
`neg_count` the number of them with a residual below 0 and `pos_count` the number with a
residual of at least 0; and a cell that is invalid in either buffer leaves the whole scan
state, so every accumulator, unchanged. -/
theorem counters_fail_when_grid_B_does_not_cover (NULL_ELEVATION : Rat) :
    (geometryAccepts shortA.meta shortB.meta = true ∧ shortA.WellFormed ∧ shortB.WellFormed ∧
      (∃ s, scan exampleNull shortA shortB = some s ∧
        s.acc.neg_count + s.acc.pos_count = 3) ∧
      (cellPositions shortA).countP (validInBoth exampleNull shortA shortB) = 1) ∧
    (∀ g0 g1 : BagFile, NonNeg32 g0.meta.bin_width → NonNeg32 g1.meta.bin_width →
      g0.WellFormed → g1.WellFormed →
      g0.meta.bin_width ≤ g1.meta.bin_width → g0.meta.bin_height ≤ g1.meta.bin_height →
      g0.meta.bin_height.toNat * g0.meta.bin_width.toNat < 2147483648 →
      scan NULL_ELEVATION g0 g1 = runCells NULL_ELEVATION (scanCells g0 g1) ScanState.init ∧
      ∀ k, ∃ s, runCells NULL_ELEVATION ((scanCells g0 g1).take k) ScanState.init = some s ∧
        s.acc.neg_count + s.acc.pos_count =
          (((cellPositions g0).take k).countP (validInBoth NULL_ELEVATION g0 g1) : Int) ∧
        s.acc.neg_count =
          (((cellPositions g0).take k).countP
            (fun p => validInBoth NULL_ELEVATION g0 g1 p && decide (residualAt g0 g1 p < 0)) :
            Int) ∧
        s.acc.pos_count =
          (((cellPositions g0).take k).countP
            (fun p => validInBoth NULL_ELEVATION g0 g1 p && decide (0 ≤ residualAt g0 g1 p)) :
            Int)) ∧
    (∀ (i j : Nat) (data0 data1 : List Rat) (s : ScanState) (a b : Rat),
      data0[j]? = some a → data1[j]? = some b → ¬ (a < NULL_ELEVATION ∧ b < NULL_ELEVATION) →
      cellStep NULL_ELEVATION i data0 data1 s j = some s) := by
  refine ⟨⟨geometryAccepts_unitBag 1 3 1 1 _ _ (by decide) (by decide) (by decide) (by decide)
    (by decide) (by decide), ⟨rfl, by decide⟩, ⟨rfl, by decide⟩, ?_, by decide⟩, ?_, ?_⟩
  · have hs : scan exampleNull shortA shortB = some
        { acc := { neg_count := 0, pos_count := 3, min_val := 2, max_val := 6, min_depth := 5,
                   max_depth := 9, sum := 12, sum2 := 56, depthtot := 21 },
          written := [{ row := 0, col := 0, record := { z := 2, status := .CHRTR2_REAL } },
                      { row := 1, col := 0, record := { z := 4, status := .CHRTR2_REAL } },
                      { row := 2, col := 0, record := { z := 6, status := .CHRTR2_REAL } }] } := by
      with_unfolding_all decide
    exact ⟨_, hs, rfl⟩
  · intro g0 g1 hw0 hw1 hwf0 hwf1 hwidth hheight hcells
    refine ⟨scan_eq_runCells NULL_ELEVATION g0 g1, ?_⟩
    intro k
    have hpre : (scanCells g0 g1).take k <+: scanCells g0 g1 := List.take_prefix k _
    have hrun := runCells_of_inBounds NULL_ELEVATION ((scanCells g0 g1).take k)
      (fun c hc => scanCells_inBounds g0 g1 hwidth c (hpre.subset hc)) ScanState.init
    obtain ⟨r0, r1, r2⟩ := counters_of_prefix NULL_ELEVATION g0 g1 hcells _ _ hpre hrun
    have hag := visit_agrees_with_grids NULL_ELEVATION g0 g1 hw0 hw1 hwf0 hwf1 hheight
    refine ⟨_, hrun, ?_, ?_, ?_⟩
    · rw [r0, ← scanCells_map_position g0 g1]
      congr 1
      exact countP_take_agree _ _ _ _ (fun c hc => (hag c hc).1) k
    · rw [r1, ← scanCells_map_position g0 g1]
      congr 1
      exact countP_take_agree _ _ _
        (fun p => validInBoth NULL_ELEVATION g0 g1 p && decide (residualAt g0 g1 p < 0))
        (fun c hc => by rw [(hag c hc).1, (hag c hc).2]) k
    · rw [r2, ← scanCells_map_position g0 g1]
      congr 1
      exact countP_take_agree _ _ _
        (fun p => validInBoth NULL_ELEVATION g0 g1 p && decide (0 ≤ residualAt g0 g1 p))
        (fun c hc => by rw [(hag c hc).1, (hag c hc).2]) k
  · intro i j data0 data1 s a b h0 h1 h
    exact cellStep_of_not_valid NULL_ELEVATION i j data0 data1 s a b h0 h1 h

/-! ## The variance of the report -/

theorem sum_sq_dev (ds : List Rat) (m : Rat) :
    (ds.map (fun d => (d - m) ^ 2)).sum =
      (ds.map (fun d => d * d)).sum - 2 * m * ds.sum + ds.length * m ^ 2 := by
  induction ds with
  | nil => simp
  | cons d ds ih =>
    simp only [List.map_cons, List.sum_cons, List.length_cons, ih]
    push_cast
    ring

theorem sampleVariance_nonneg (ds : List Rat) (h : 2 ≤ ds.length) : 0 ≤ sampleVariance ds := by
  unfold sampleVariance
  apply div_nonneg
  · apply List.sum_nonneg
    intro x hx
    obtain ⟨d, -, rfl⟩ := List.mem_map.mp hx
    exact sq_nonneg _
  · have : (2 : Rat) ≤ (ds.length : Rat) := by exact_mod_cast h
    linarith

/-- The state reached from the initial one by a list of visits, in terms of the residuals of
its valid visits. -/
theorem runCells_init_acc (NULL_ELEVATION : Rat) (cs : List CellVisit) (s : ScanState)
    (hrun : runCells NULL_ELEVATION cs ScanState.init = some s) :
    s.written = (cs.filter (CellVisit.valid NULL_ELEVATION)).map CellVisit.writeCall ∧
    s.acc.sum = (s.written.map (fun w => w.record.z)).sum ∧
    s.acc.sum2 = (s.written.map (fun w => w.record.z * w.record.z)).sum ∧
    (s.written.length < 2147483648 → s.acc.count = s.written.length) := by
  have hs := runCells_eq_foldl NULL_ELEVATION cs _ _ hrun
  have hw : s.written =
      (cs.filter (CellVisit.valid NULL_ELEVATION)).map CellVisit.writeCall := by
    rw [hs, foldl_apply_written]; rfl
  refine ⟨hw, ?_, ?_, ?_⟩
  · rw [hw, hs, foldl_apply_sum]
    simp [ScanState.init, Stats.init, CellVisit.writeCall, Function.comp_def]
  · rw [hw, hs, foldl_apply_sum2]
    simp [ScanState.init, Stats.init, CellVisit.writeCall, Function.comp_def]
  · intro hb
    have hl : s.written.length = cs.countP (CellVisit.valid NULL_ELEVATION) := by
      rw [hw, List.length_map, List.countP_eq_length_filter]
    obtain ⟨r1, r2⟩ := foldl_apply_counts NULL_ELEVATION cs ScanState.init (by decide) (by decide)
      (by simp only [ScanState.init, Stats.init]; omega)
    rw [← hs] at r1 r2
    simp only [ScanState.init, Stats.init, zero_add] at r1 r2
    have hsplit := countP_valid_split NULL_ELEVATION cs
    unfold Stats.count add32
    rw [r1, r2]
    rw [wrap32_of_range _ (by omega) (by omega)]
    omega

theorem visitWithResidual_valid (NULL_ELEVATION d : Rat) :
    (visitWithResidual NULL_ELEVATION d).valid NULL_ELEVATION = true := by
  have h1 : d ≤ |d| := le_abs_self d
  have h2 : 0 ≤ |d| := abs_nonneg d
  have ha : NULL_ELEVATION - 1 - |d| + d < NULL_ELEVATION := by linarith
  have hb : NULL_ELEVATION - 1 - |d| < NULL_ELEVATION := by linarith
  simp [visitWithResidual, CellVisit.valid, ha, hb]

theorem visitWithResidual_diff (NULL_ELEVATION d : Rat) :
    (visitWithResidual NULL_ELEVATION d).diff = d := by
  simp [visitWithResidual, CellVisit.diff, CellVisit.elevA, CellVisit.elevB]

/-- Every list of rationals is the list of residuals of some run of cell visits. -/
theorem residuals_realised (NULL_ELEVATION : Rat) (ds : List Rat) :
    ∃ cs s, runCells NULL_ELEVATION cs ScanState.init = some s ∧
      s.written.map (fun w => w.record.z) = ds := by
  refine ⟨ds.map (visitWithResidual NULL_ELEVATION), _,
    runCells_of_inBounds NULL_ELEVATION _ ?_ _, ?_⟩
  · intro c hc
    obtain ⟨d, -, rfl⟩ := List.mem_map.mp hc
    simp [visitWithResidual]
  · rw [foldl_apply_written]
    have hall : (ds.map (visitWithResidual NULL_ELEVATION)).filter
        (CellVisit.valid NULL_ELEVATION) = ds.map (visitWithResidual NULL_ELEVATION) := by
      apply List.filter_eq_self.mpr
      intro c hc
      obtain ⟨d, -, rfl⟩ := List.mem_map.mp hc
      exact visitWithResidual_valid NULL_ELEVATION d
    rw [hall]
    simp only [ScanState.init, List.nil_append, List.map_map]
    conv_rhs => rw [← List.map_id ds]
    apply List.map_congr_left
    intro d _
    simp [CellVisit.writeCall, visitWithResidual_diff]

/-- C6: over exact arithmetic, after any list of cell visits from the initial accumulators
(the scan is one, by `scan_eq_runCells`) whose valid residuals `d_1 .. d_n` number at least 2
(and fewer than 2^31, the range of the counters), the variance that the report computes,
`(sum2 - sum * (sum / n)) / (n - 1)`, is defined and equals the Bessel-corrected sample
variance of the residuals, and is not negative. Every sequence of residuals arises from
some list of visits. -/
theorem report_variance_is_sample_variance (NULL_ELEVATION : Rat) (cs : List CellVisit)
    (s : ScanState) (hrun : runCells NULL_ELEVATION cs ScanState.init = some s)
    (h2 : 2 ≤ s.written.length) (hmax : s.written.length < 2147483648) :
    s.acc.var = some (sampleVariance (s.written.map (fun w => w.record.z))) ∧
    s.acc.var = some ((s.acc.sum2 - s.acc.sum * (s.acc.sum / s.written.length)) /
      ((s.written.length : Rat) - 1)) ∧
    0 ≤ sampleVariance (s.written.map (fun w => w.record.z)) ∧
    (∀ ds : List Rat, ∃ cs' s', runCells NULL_ELEVATION cs' ScanState.init = some s' ∧
      s'.written.map (fun w => w.record.z) = ds) := by
  obtain ⟨-, hsum, hsum2, hcount⟩ := runCells_init_acc NULL_ELEVATION cs s hrun
  have hc := hcount hmax
  have hn : (2 : Rat) ≤ (s.written.length : Rat) := by exact_mod_cast h2
  have hn0 : (s.written.length : Rat) ≠ 0 := by linarith
  have hn1 : (s.written.length : Rat) - 1 ≠ 0 := by
    intro h; linarith
  have hsub : sub32 s.acc.count 1 = (s.written.length : Int) - 1 := by
    rw [hc]; exact wrap32_of_range _ (by omega) (by omega)
  have hvar : s.acc.var = some ((s.acc.sum2 - s.acc.sum * (s.acc.sum / s.written.length)) /
      ((s.written.length : Rat) - 1)) := by
    unfold Stats.var Stats.ss Stats.meandiff fdiv
    rw [hsub, hc]
    push_cast
    rw [if_neg hn0]
    simp only [Option.map_some', Option.some_bind]
    rw [if_neg hn1]
  refine ⟨?_, hvar, sampleVariance_nonneg _ (by simpa using h2),
    residuals_realised NULL_ELEVATION⟩
  rw [hvar]
  congr 1
  unfold sampleVariance
  rw [sum_sq_dev, List.length_map, hsum, hsum2, List.map_map]
  congr 1
  simp only [Function.comp_def]
  field_simp
  ring

/-! ## The end-to-end example and the report -/

theorem endToEnd_scan (NULL_ELEVATION : Rat) (h : 30 < NULL_ELEVATION) :
    scan NULL_ELEVATION endToEndA endToEndB = some endToEndFinal := by
  have h10 : (10 : Rat) < NULL_ELEVATION := by linarith
  have h20 : (20 : Rat) < NULL_ELEVATION := by linarith
  have h9 : (9 : Rat) < NULL_ELEVATION := by linarith
  have h21 : (21 : Rat) < NULL_ELEVATION := by linarith
  have h29 : (29 : Rat) < NULL_ELEVATION := by linarith
  simp [scan, endToEndA, endToEndB, unitBag, rowStep, rowLoop, cellStep, validCell, bagReadRow,
    readInto, callocRow, sub32, wrap32, List.range_succ, ScanState.init, Stats.init, fabs, add32,
    endToEndFinal, h, h10, h20, h9, h21, h29]
  norm_num

/-- C4: for the one-row grids A = [10, 20, 30] and B = [9, 21, 29] of identical geometry, with
every cell valid (the sentinel is above 30), the scan writes the residuals [1, -1, 1], and
count = 3, sumDiff = 1, sumDiffSquared = 3, rms = 1 (the square root of its radicand),
negCount = 1, posCount = 2, rounded neg% = 33, rounded pos% = 67 and maxAbsDiff = 1. -/
theorem end_to_end_example (NULL_ELEVATION : Rat) (h : 30 < NULL_ELEVATION) :
    geometryAccepts endToEndA.meta endToEndB.meta = true ∧
    ∃ s, scan NULL_ELEVATION endToEndA endToEndB = some s ∧
      s.written.map (fun w => w.record.z) = [1, -1, 1] ∧
      s.acc.count = 3 ∧ s.acc.sum = 1 ∧ s.acc.sum2 = 3 ∧
      (∃ r : Rat, s.acc.rmsRadicand = some r ∧ Real.sqrt (r : Real) = 1) ∧
      s.acc.neg_count = 1 ∧ s.acc.pos_count = 2 ∧
      s.acc.dataLine.neg_percent = some 33 ∧ s.acc.dataLine.pos_percent = some 67 ∧
      s.acc.max_val = 1 := by
  refine ⟨geometryAccepts_unitBag 3 1 3 1 _ _ (by decide) (by decide) (by decide) (by decide)
    (by decide) (by decide), endToEndFinal, endToEnd_scan NULL_ELEVATION h, ?_⟩
  refine ⟨by with_unfolding_all decide, by with_unfolding_all decide, rfl, rfl, ⟨1, ?_, ?_⟩,
    rfl, rfl, by with_unfolding_all decide, by with_unfolding_all decide, rfl⟩
  · with_unfolding_all decide
  · simp

/-- C4 with the sentinel of the BAG library. -/
theorem end_to_end_example_witness :
    (30 : Rat) < exampleNull ∧
    geometryAccepts endToEndA.meta endToEndB.meta = true ∧
    ∃ s, scan exampleNull endToEndA endToEndB = some s ∧
      s.written.map (fun w => w.record.z) = [1, -1, 1] ∧
      s.acc.count = 3 ∧ s.acc.sum = 1 ∧ s.acc.sum2 = 3 ∧
      (∃ r : Rat, s.acc.rmsRadicand = some r ∧ Real.sqrt (r : Real) = 1) ∧
      s.acc.neg_count = 1 ∧ s.acc.pos_count = 2 ∧
      s.acc.dataLine.neg_percent = some 33 ∧ s.acc.dataLine.pos_percent = some 67 ∧
      s.acc.max_val = 1 :=
  ⟨by with_unfolding_all decide, end_to_end_example exampleNull (by with_unfolding_all decide)⟩

/-- C6 at the end-to-end example: three residuals. -/
theorem report_variance_is_sample_variance_witness :
    endToEndFinal.acc.var =
      some (sampleVariance (endToEndFinal.written.map (fun w => w.record.z))) ∧
    endToEndFinal.acc.var =
      some ((endToEndFinal.acc.sum2 -
          endToEndFinal.acc.sum * (endToEndFinal.acc.sum / endToEndFinal.written.length)) /
        ((endToEndFinal.written.length : Rat) - 1)) ∧
    0 ≤ sampleVariance (endToEndFinal.written.map (fun w => w.record.z)) ∧
    (∀ ds : List Rat, ∃ cs' s', runCells exampleNull cs' ScanState.init = some s' ∧
      s'.written.map (fun w => w.record.z) = ds) :=
  report_variance_is_sample_variance exampleNull (scanCells endToEndA endToEndB) endToEndFinal
    (by rw [← scan_eq_runCells]; exact endToEnd_scan exampleNull (by with_unfolding_all decide))
    (by decide) (by decide)

/-- C10 fails on the code: the grids `narrowA` (two bins wide) and `narrowB` (one bin wide)
are accepted by the geometry check; the column index 1 is used by the scan (it is below the
width of grid A) and lies outside the row buffer of grid B, whose length is 1, so the read of
`data[1][1]` is outside the buffer. -/
theorem scan_index_outside_buffer_of_grid_B :
    geometryAccepts narrowA.meta narrowB.meta = true ∧
    (1 : Int) < narrowA.meta.bin_width ∧ ¬ ((1 : Int) < narrowB.meta.bin_width) ∧
    (callocRow narrowB.meta.bin_width).length = 1 ∧
    (∃ c ∈ scanCells narrowA narrowB, c.j = 1 ∧ c.data1.length = 1 ∧
      ∀ s, c.step exampleNull s = none) ∧
    scan exampleNull narrowA narrowB = none := by
  refine ⟨geometryAccepts_unitBag 2 1 1 1 _ _ (by decide) (by decide) (by decide) (by decide)
    (by decide) (by decide), by decide, by decide, rfl, ?_, by with_unfolding_all decide⟩
  refine ⟨{ i := 0, j := 1, data0 := [1, 2], data1 := [0] }, ?_, rfl, rfl, ?_⟩
  · simp [scanCells, rowCells, narrowA, narrowB, unitBag, bufferAfter, readInto, bagReadRow,
      callocRow, sub32, wrap32, List.range_succ]
  · intro s
    simp [CellVisit.step, cellStep, exampleNull]
    norm_num

/-- A run that returns 0 has printed, after the lines of the events before the raster was
created, exactly the report for the final accumulators of the scan. -/
theorem produce_stdout_eq_report (w : World) (bag_file0 bag_file1 : List Char) (g0 g1 : BagFile)
    (t : List Event) (h : (produce w bag_file0 bag_file1 g0 g1 t).status = .exit 0) :
    ∃ s, scan w.NULL_ELEVATION g0 g1 = some s ∧
      stdoutLines (produce w bag_file0 bag_file1 g0 g1 t).trace =
        stdoutLines t ++ report bag_file0 bag_file1 s.acc := by
  revert h
  unfold produce
  cases chrtr2FileName w.chrtr2_file_uninit bag_file0 with
  | none => intro h; simp at h
  | some name =>
    simp only []
    by_cases hc : w.chrtr2_create_file name (chrtr2Header g0.meta) = true
    · rw [if_pos hc]
      cases scan w.NULL_ELEVATION g0 g1 with
      | none => intro h; simp at h
      | some s =>
        intro _
        refine ⟨s, rfl, ?_⟩
        simp only [stdoutLines, List.filterMap_append, report, List.filterMap_map,
          Function.comp_def, List.filterMap_cons, List.filterMap_nil, List.append_assoc]
        simp

    · rw [if_neg hc]
      intro h
      simp at h

end BagResidual
